import Mathlib

/-!
Verification development for the csmpilot backend.

Shallow embedding of the sync/identity-resolution/vector-reindex core:
* field normalizers and health calculators (salesforce/sync_service.py,
  gainsight/sync_service.py),
* the Gong name-based customer matcher (gong/sync_service.py),
* the Salesforce opportunity sync and the generic connector/metadata
  sync (integrations/sync_service.py, integrations/example_sync.py)
  as explicit state machines over list-modelled tables,
* the vector reindex hooks, retry tasks and similarity search
  (customers/signals.py, customers/tasks.py, customers/vector_services.py).

Python dict/JSON payloads are modelled by the inductive `JVal`;
raising Python code is modelled with `Except PyErr`; Django tables are
lists of records, and per-record `transaction.atomic` blocks are
modelled by discarding the record's state delta on error.
-/

namespace CSMPilot

/-- Python exception surrogate (AttributeError, MultipleObjectsReturned,
IntegrityError, ...). -/
inductive PyErr
  | attributeError
  | multipleObjectsReturned
  | integrityError
  deriving DecidableEq, Repr

/-- JSON-ish value, the shape of raw API payloads handled by the sync
services (`salesforce_data`, `gainsight_data`, `meeting_data`). -/
inductive JVal
  | jnull
  | jbool (b : Bool)
  | jnum (n : Int)
  | jstr (s : String)
  | jobj (fields : List (String × JVal))
  | jarr (elems : List JVal)

namespace JVal

/-- Python truthiness of a JSON value (`if not salesforce_data: ...`,
`amount or 0`, ...). -/
def truthy : JVal → Bool
  | jnull => false
  | jbool b => b
  | jnum n => n != 0
  | jstr s => s != ""
  | jobj fields => !fields.isEmpty
  | jarr elems => !elems.isEmpty

/-- `d.get(key, default)` on a Python dict; raises AttributeError when the
receiver is not a dict (that is how a malformed raw record blows up inside
`sync_opportunity` / `sync_company`). -/
def getD (j : JVal) (key : String) (default : JVal) : Except PyErr JVal :=
  match j with
  | jobj fields =>
      match fields.lookup key with
      | some v => .ok v
      | none => .ok default
  | _ => .error .attributeError

/-- `a or b` in Python, specialised to JSON values. -/
def orElse (a b : JVal) : JVal := if a.truthy then a else b

/-- Coerce a JSON value to the string used by the enum mappers: the
Python dicts are keyed by strings, so a non-string value never matches a
mapping key and falls to the default; we realise that by sending
non-strings to a sentinel that is not a mapping key. -/
def asKey : JVal → String
  | jstr s => s
  | _ => "\x00nonstring"

/-- Integer reading used for `Amount` / `Probability` style fields
(numbers in the mock payloads are integral). Non-numbers read as 0 in the
places the services use `... or 0`. -/
def asInt : JVal → Int
  | jnum n => n
  | _ => 0

/-- String reading with `''` for non-strings. -/
def asStr : JVal → String
  | jstr s => s
  | _ => ""

end JVal

/-! ## Field normalizers (C7)

From `salesforce/sync_service.py` (`map_stage_to_internal`) and
`gainsight/sync_service.py` (`map_status_to_internal`,
`map_stage_to_internal`). Each Python function is a dict `.get` with an
explicit default; the Gainsight ones additionally send strings longer
than 20 characters (opaque Gainsight IDs) straight to the default. -/

namespace Salesforce

/-- `stage_mapping` dict of `SalesforceSyncService.map_stage_to_internal`. -/
def stage_mapping : List (String × String) :=
  [("Qualified", "qualified"),
   ("Development", "development"),
   ("Proposal", "proposal"),
   ("Negotiating", "negotiating"),
   ("Contracting", "contracting"),
   ("Ready to Close", "ready_to_close"),
   ("Closed Won", "closed_won"),
   ("Closed Lost", "closed_lost")]

/-- `SalesforceSyncService.map_stage_to_internal`. -/
def map_stage_to_internal (salesforce_stage : String) : String :=
  (stage_mapping.lookup salesforce_stage).getD "qualified"

end Salesforce

namespace Gainsight

/-- `status_mapping` dict of `GainsightSyncService.map_status_to_internal`. -/
def status_mapping : List (String × String) :=
  [("Active", "active"),
   ("Inactive", "inactive"),
   ("Churned", "churned"),
   ("At Risk", "at_risk"),
   ("Expansion", "expansion")]

/-- `GainsightSyncService.map_status_to_internal`: strings longer than 20
characters are treated as opaque Gainsight IDs and default to `active`. -/
def map_status_to_internal (gainsight_status : String) : String :=
  if gainsight_status.length > 20 then "active"
  else (status_mapping.lookup gainsight_status).getD "active"

/-- `stage_mapping` dict of `GainsightSyncService.map_stage_to_internal`. -/
def stage_mapping : List (String × String) :=
  [("New Customer", "new_customer"),
   ("Kicked Off", "kicked_off"),
   ("Launched", "launched"),
   ("Adoption", "adoption"),
   ("Expansion", "expansion"),
   ("Renewal", "renewal"),
   ("Churned", "churned")]

/-- `GainsightSyncService.map_stage_to_internal`. -/
def map_stage_to_internal (gainsight_stage : String) : String :=
  if gainsight_stage.length > 20 then "new_customer"
  else (stage_mapping.lookup gainsight_stage).getD "new_customer"

/-- `industry_mapping` dict of `GainsightSyncService.map_industry_to_internal`. -/
def industry_mapping : List (String × String) :=
  [("Technology", "technology"),
   ("Healthcare", "healthcare"),
   ("Finance", "finance"),
   ("Education", "education"),
   ("Retail", "retail"),
   ("Manufacturing", "manufacturing")]

/-- `GainsightSyncService.map_industry_to_internal`. -/
def map_industry_to_internal (gainsight_industry : String) : String :=
  (industry_mapping.lookup gainsight_industry).getD "other"

end Gainsight

/-! ## Health score calculators (C5)

`SalesforceSyncService.calculate_health_score` and
`GainsightSyncService.calculate_health_score`, plus the generic
first-match ordered-rule evaluator the spec describes, to compare the
calculators against. -/

/-- The canonical health enum (`Customer.HEALTH_CHOICES`). -/
inductive Health
  | healthy
  | at_risk
  | critical
  deriving DecidableEq, Repr

namespace Salesforce

/-- `SalesforceSyncService.calculate_health_score`. -/
def calculate_health_score (probability : Int) (stage : String) : Health :=
  if stage = "closed_won" then .healthy
  else if stage = "closed_lost" then .critical
  else if probability ≥ 75 then .healthy
  else if probability ≥ 50 then .at_risk
  else .critical

end Salesforce

namespace Gainsight

/-- Python truthiness-guarded tenure test
`lifetime_months and lifetime_months >= 12` (`None` and `0` are falsy). -/
def lifetimeAtLeast12 : Option Int → Bool
  | none => false
  | some m => m != 0 && m ≥ 12

/-- `GainsightSyncService.calculate_health_score`;
`lifetime_months = none` models Python `None`. -/
def calculate_health_score (status stage : String)
    (lifetime_months : Option Int) : Health :=
  if status = "churned" then .critical
  else if status = "at_risk" then .at_risk
  else if status = "active" ∧ (stage = "expansion" ∨ stage = "renewal") then .healthy
  else if status = "active" ∧ lifetimeAtLeast12 lifetime_months then .healthy
  else if status = "active" then .at_risk
  else .at_risk

end Gainsight

/-- One ordered rule of a health calculator: a condition and the result
produced when the condition is the first to hold. -/
structure HealthRule (α : Type) where
  cond : α → Bool
  result : Health

/-- First-match evaluation of an ordered rule list with a default, the
shape §4.3 of the spec ascribes to every health calculator. -/
def firstMatch {α : Type} : List (HealthRule α) → Health → α → Health
  | [], default, _ => default
  | r :: rs, default, x =>
      if r.cond x then r.result else firstMatch rs default x

/-! ## Canonical data model

`customers/models.py` (`Customer`) and `gong/models.py` (`GongMeeting`),
restricted to the fields the verified components read or write.
Timestamps are logical `Nat` clocks threaded as a `now` parameter;
dates are carried as their source strings (`renewal_date`), with
`%Y-%m-%d` parsing modelled syntactically. -/

/-- A row of the `Customer` table. -/
structure Customer where
  id : Nat
  name : String
  industry : String
  arr : Int
  health_score : Health
  renewal_date : String
  salesforce_account_id : String
  salesforce_synced : Bool
  gainsight_company_id : String
  gainsight_synced : Bool
  products : List String
  last_updated : Nat
  deriving Repr

/-- A row of the `GongMeeting` table (fields the matcher and sync use). -/
structure GongMeeting where
  id : Nat
  gong_meeting_id : String
  companyId : Nat
  deriving DecidableEq, Repr

/-- Syntactic `%Y-%m-%d` shape test standing in for
`datetime.strptime(s, '%Y-%m-%d')` succeeding (in-range month/day
validation is abstracted away; no claim depends on it). -/
def isYmdDate (s : String) : Bool :=
  match s.data with
  | [y1, y2, y3, y4, '-', m1, m2, '-', d1, d2] =>
      y1.isDigit && y2.isDigit && y3.isDigit && y4.isDigit &&
      m1.isDigit && m2.isDigit && d1.isDigit && d2.isDigit
  | _ => false

/-- `Customer.Meta.ordering = ['-arr', 'name']`: the comparison Django
applies to every unordered `Customer` queryset. -/
def customerLE (a b : Customer) : Bool :=
  if b.arr < a.arr then true
  else if a.arr = b.arr then decide (a.name ≤ b.name)
  else false

/-- Stable insertion into a sorted list (earlier rows first among
ties). -/
def orderedInsert (le : Customer → Customer → Bool) (c : Customer) :
    List Customer → List Customer
  | [] => [c]
  | d :: ds => if le c d then c :: d :: ds else d :: orderedInsert le c ds

/-- Stable insertion sort, the model of SQL `ORDER BY` on a queryset. -/
def sortBy (le : Customer → Customer → Bool) : List Customer → List Customer
  | [] => []
  | c :: cs => orderedInsert le c (sortBy le cs)

/-- A `Customer.objects` queryset before filtering: the table rows in the
model's default ordering. -/
def customerQS (table : List Customer) : List Customer :=
  sortBy customerLE table

/-- Python `max(l, key=key)` on a non-empty list: the first element with
the maximal key. -/
def pyMaxBy (key : Customer → Nat) : List Customer → Option Customer
  | [] => none
  | c :: cs => some (cs.foldl (fun best x => if key x > key best then x else best) c)

/-- Django `name__icontains=needle`: case-insensitive substring test. -/
def icontains (hay needle : String) : Bool :=
  decide (needle.toLower.data <:+: hay.toLower.data)

/-! ## Gong identity matching (C1)

`GongSyncService.match_meeting_to_customer` from `gong/sync_service.py`:
exact name match, tie-breaks over duplicate names (prefer customers
without meetings, then healthcare, then recency), then partial-name and
deal-name containment fallbacks. It reads the database and never creates
a customer. -/

namespace Gong

/-- The state the Gong sync reads/writes: the `Customer` table (read
only) and the `GongMeeting` table. -/
structure GongDB where
  customers : List Customer
  meetings : List GongMeeting
  nextMeetingId : Nat
  deriving Repr

/-- `GongMeeting.objects.filter(company=c).count()`. -/
def meetingCount (db : GongDB) (c : Customer) : Nat :=
  (db.meetings.filter (·.companyId = c.id)).length

/-- `GongSyncService.match_meeting_to_customer`. `meeting_data` is the
raw Gong payload; name extraction follows
`meeting_data.get('account', {}).get('name', '')`. -/
def match_meeting_to_customer (db : GongDB) (meeting_data : JVal) :
    Except PyErr (Option Customer) := do
  let account ← meeting_data.getD "account" (.jobj [])
  let account_name := (← account.getD "name" (.jstr "")).asStr
  if account_name = "" then return none
  let customers := (customerQS db.customers).filter (·.name = account_name)
  if customers.length = 1 then
    return customers.head?
  else if customers.length > 1 then
    -- multiple customers with the same name: prefer customers without meetings
    let without := customers.filter (fun c => meetingCount db c = 0)
    if !without.isEmpty then
      match without.filter (·.industry = "healthcare") with
      | c :: _ => return some c
      | [] => return pyMaxBy (·.last_updated) without
    else
      match customers.filter (·.industry = "healthcare") with
      | c :: _ => return some c
      | [] =>
          -- order_by('-last_updated').first(); ties resolved stably
          return (sortBy (fun a b => b.last_updated ≤ a.last_updated) customers).head?
  else
    -- no exact match: partial match, then deal-name match
    match (customerQS db.customers).filter (fun c => icontains c.name account_name) with
    | c :: _ => return some c
    | [] =>
        let deal ← meeting_data.getD "deal" (.jobj [])
        let deal_name := (← deal.getD "name" (.jstr "")).asStr
        if deal_name = "" then return none
        match (customerQS db.customers).filter (fun c => icontains c.name deal_name) with
        | c :: _ => return some c
        | [] => return none

/-- The slice of `GongSyncService.sync_meeting` that decides whether any
row is written: an unmatched meeting is skipped (`return None, False`);
the `Customer` table is never written by the Gong sync. -/
def sync_meeting (db : GongDB) (meeting_data : JVal) :
    Except PyErr (GongDB × Option (Nat × Bool)) := do
  if !meeting_data.truthy then return (db, none)
  let customer? ← match_meeting_to_customer db meeting_data
  match customer? with
  | none => return (db, none)
  | some customer =>
      let gong_meeting_id :=
        (JVal.orElse (← meeting_data.getD "id" .jnull)
          (← meeting_data.getD "callId" (.jstr ""))).asStr
      if gong_meeting_id = "" then return (db, none)
      -- GongMeeting.objects.get_or_create(gong_meeting_id=...)
      match db.meetings.filter (·.gong_meeting_id = gong_meeting_id) with
      | [] =>
          let m : GongMeeting := ⟨db.nextMeetingId, gong_meeting_id, customer.id⟩
          return ({ db with meetings := db.meetings ++ [m],
                            nextMeetingId := db.nextMeetingId + 1 }, some (m.id, true))
      | [m] =>
          let m' : GongMeeting := { m with companyId := customer.id }
          let ms := db.meetings.map (fun x => if x.id = m.id then m' else x)
          return ({ db with meetings := ms }, some (m.id, false))
      | _ :: _ :: _ => throw .multipleObjectsReturned

end Gong

/-! ## Gainsight sync (C1, C2)

`GainsightSyncService.sync_company` from `gainsight/sync_service.py`:
resolve the customer by stored Gainsight id, then by exact name
(`Customer.objects.get`, so an ambiguous name raises
`MultipleObjectsReturned`), else create; then upsert the
`GainsightCompany` metadata row keyed by `gainsight_id`. The Celery task
`sync_all_gainsight_companies` (gainsight/tasks.py) loops with a
per-record try/except and continues on failure; the plain
`sync_all_companies` method has no per-record handler. -/

namespace Gainsight

/-- A row of the `GainsightCompany` table (fields the sync writes that
the claims inspect). -/
structure GainsightCompany where
  gainsight_id : String
  customerId : Nat
  status : String
  stage : String
  raw_api_response : JVal

/-- The state the Gainsight sync reads/writes. -/
structure GSState where
  customers : List Customer
  companies : List GainsightCompany
  nextCustomerId : Nat

/-- `_parse_date` on the `Renewal_Date` payload value: millisecond
timestamps and ISO strings both yield a date, anything else `None`
(numeric-overflow and format-range details are abstracted into the
syntactic check). -/
def gsParseDate : JVal → Option String
  | .jnum n => some (toString n)
  | .jstr s =>
      let d := (s.splitOn "T").headD ""
      if isYmdDate d then some d else none
  | _ => none

/-- `.get('Customer_Lifetime_in_Months')` as the optional integer fed to
`calculate_health_score`. -/
def toLifetime : JVal → Option Int
  | .jnum n => some n
  | _ => none

/-- The customer-resolution slice of `sync_company` (its
`Get or create Customer` block): by `gainsight_company_id`, then by
exact name, else create. Returns the new table, next id, the resolved
customer and the `customer_created` flag. -/
def resolveCustomer (customers : List Customer) (nextId : Nat) (now : Nat)
    (gainsight_id company_name industry : String) (arr : Int)
    (health_score : Health) (renewal_date : String) :
    Except PyErr (List Customer × Nat × Customer × Bool) := do
  -- Customer.objects.get(gainsight_company_id=...); only DoesNotExist is caught
  let byId :=
    if gainsight_id ≠ "" then
      match customers.filter (·.gainsight_company_id = gainsight_id) with
      | [] => Except.ok none
      | [c] => Except.ok (some c)
      | _ :: _ :: _ => Except.error PyErr.multipleObjectsReturned
    else Except.ok none
  match ← byId with
  | some c => return (customers, nextId, c, false)
  | none =>
      -- Customer.objects.get(name=company_name); only DoesNotExist is caught
      match customers.filter (·.name = company_name) with
      | [c] => return (customers, nextId, c, false)
      | _ :: _ :: _ => throw .multipleObjectsReturned
      | [] =>
          let c : Customer :=
            ⟨nextId, company_name, industry, arr, health_score, renewal_date,
             "", false, gainsight_id, true, [], now⟩
          return (customers ++ [c], nextId + 1, c, true)

/-- The `Update customer if it already existed` block of `sync_company`. -/
def updateCustomer (c : Customer) (now : Nat)
    (gainsight_id company_name industry : String) (arr : Int)
    (health_score : Health) (renewal_date : String) : Customer :=
  { c with name := company_name, industry := industry, arr := arr,
           health_score := health_score, renewal_date := renewal_date,
           gainsight_company_id := gainsight_id, gainsight_synced := true,
           last_updated := now }

/-- `GainsightSyncService.sync_company`: `none` result means the record
was skipped (`return None`); `some created` mirrors the returned dict's
`created` flag. A raised exception leaves the state unchanged
(`transaction.atomic`). -/
def sync_company (s : GSState) (now : Nat) (today : String)
    (gainsight_data : JVal) : Except PyErr (GSState × Option Bool) := do
  if !gainsight_data.truthy then return (s, none)
  let company_name := (← gainsight_data.getD "Name" (.jstr "")).asStr
  let gainsight_id := (← gainsight_data.getD "Gsid" (.jstr "")).asStr
  let arr := (JVal.orElse (← gainsight_data.getD "ARR" (.jnum 0)) (.jnum 0)).asInt
  let industry := map_industry_to_internal (← gainsight_data.getD "Industry" (.jstr "")).asKey
  let renewal_date? := gsParseDate (← gainsight_data.getD "Renewal_Date" .jnull)
  let status := map_status_to_internal (← gainsight_data.getD "Status" (.jstr "")).asKey
  let stage := map_stage_to_internal (← gainsight_data.getD "Stage" (.jstr "")).asKey
  let lifetime_months := toLifetime (← gainsight_data.getD "Customer_Lifetime_in_Months" .jnull)
  let health_score := calculate_health_score status stage lifetime_months
  let renewal_date := renewal_date?.getD today
  let (customers, nextId, customer, customer_created) ←
    resolveCustomer s.customers s.nextCustomerId now
      gainsight_id company_name industry arr health_score renewal_date
  let customers :=
    if customer_created then customers
    else customers.map (fun c =>
      if c.id = customer.id then
        updateCustomer c now gainsight_id company_name industry arr health_score renewal_date
      else c)
  -- GainsightCompany.objects.get_or_create(gainsight_id=...)
  let company : GainsightCompany :=
    ⟨gainsight_id, customer.id, status, stage, gainsight_data⟩
  match s.companies.filter (·.gainsight_id = gainsight_id) with
  | [] =>
      return ({ customers := customers, companies := s.companies ++ [company],
                nextCustomerId := nextId }, some true)
  | [_] =>
      let cs := s.companies.map (fun g => if g.gainsight_id = gainsight_id then company else g)
      return ({ customers := customers, companies := cs,
                nextCustomerId := nextId }, some (customer_created || false))
  | _ :: _ :: _ => throw .multipleObjectsReturned

/-- `GainsightSyncService.sync_all_companies`: no per-record exception
handling, so a raising record aborts the loop; non-`None` results are
appended. Returns the final state, the number of appended results, and
the propagated exception if any. -/
def sync_all_companies (s : GSState) (now : Nat) (today : String) :
    List JVal → GSState × Nat × Option PyErr
  | [] => (s, 0, none)
  | d :: ds =>
      match sync_company s now today d with
      | .error e => (s, 0, some e)
      | .ok (s', r) =>
          let (s'', n, e) := sync_all_companies s' now today ds
          (s'', (if r.isSome then 1 else 0) + n, e)

/-- The record loop of the Celery task `sync_all_gainsight_companies`
(gainsight/tasks.py): per-record try/except, `continue` on failure,
`synced_count` incremented after every non-raising `sync_company` call. -/
def sync_all_gainsight_companies (s : GSState) (now : Nat) (today : String) :
    List JVal → GSState × Nat
  | [] => (s, 0)
  | d :: ds =>
      match sync_company s now today d with
      | .error _ => sync_all_gainsight_companies s now today ds
      | .ok (s', _) =>
          let (s'', n) := sync_all_gainsight_companies s' now today ds
          (s'', n + 1)

end Gainsight

/-! ## Salesforce sync (C2, C3)

`SalesforceSyncService.sync_opportunity` / `sync_all_opportunities` from
`salesforce/sync_service.py`, as a state machine over the `Customer` and
`SalesforceOpportunity` tables. Each record is one atomic transaction:
an exception inside `sync_opportunity` leaves the state unchanged, and
`sync_all_opportunities` has no per-record handler, so the exception
aborts the remaining records. -/

namespace Salesforce

/-- A row of the `SalesforceOpportunity` table (the fields the claims
inspect, all of which the update branch also overwrites). -/
structure SFOpp where
  salesforce_id : String
  customerId : Nat
  stage : String
  probability : Int
  amount : Int
  raw_api_response : JVal

/-- The state the Salesforce sync reads/writes. -/
structure SFState where
  customers : List Customer
  opps : List SFOpp
  nextCustomerId : Nat

/-- `SalesforceSyncService.map_industry_from_account`. -/
def map_industry_from_account (account_name : String) : String :=
  let l := account_name.toLower
  if ["tech", "software", "it", "digital"].any (fun w => icontains l w) then "technology"
  else if ["health", "medical", "hospital"].any (fun w => icontains l w) then "healthcare"
  else if ["bank", "finance", "financial"].any (fun w => icontains l w) then "finance"
  else if ["retail", "shop", "store"].any (fun w => icontains l w) then "retail"
  else if ["education", "university", "school", "institute"].any (fun w => icontains l w) then "education"
  else if ["manufacturing", "factory", "production"].any (fun w => icontains l w) then "manufacturing"
  else "other"

/-- `Products__c` payload as the stored product list (only lists of
strings occur; other shapes are claim-irrelevant). -/
def toProducts : JVal → List String
  | .jarr es => es.map JVal.asStr
  | _ => []

/-- The payload fields `sync_opportunity` reads, all extracted from
`salesforce_data` before (or independently of) any state-dependent
step; none of the reads can fail once the payload is a dict, so
grouping them up front is behaviour-equal to the interleaved source. -/
structure ExtractedOpp where
  account_name : String
  account_id : String
  amount : Int
  close_date_str : String
  probability : Int
  stage : String
  hasProducts : Bool
  products : List String
  opportunity_id : String
  opp_amount : Int
  raw : JVal

/-- The payload-reading half of `SalesforceSyncService.sync_opportunity`
(`none` = the `if not salesforce_data: return None` skip). -/
def extractOpp (salesforce_data : JVal) : Except PyErr (Option ExtractedOpp) := do
  if !salesforce_data.truthy then return none
  let account ← salesforce_data.getD "Account" (.jobj [])
  let account_name := (← account.getD "Name" (.jstr "")).asStr
  let account_id := (← salesforce_data.getD "AccountId" (.jstr "")).asStr
  let amount := (JVal.orElse (← salesforce_data.getD "Amount" (.jnum 0))
    (← salesforce_data.getD "Amount_USD__c" (.jnum 0))).asInt
  let close_date_str := (← salesforce_data.getD "CloseDate" (.jstr "")).asStr
  let probability := (JVal.orElse (← salesforce_data.getD "Probability" (.jnum 0))
    (.jnum 0)).asInt
  let stage := map_stage_to_internal (← salesforce_data.getD "StageName" (.jstr "")).asKey
  let products? := (← salesforce_data.getD "Products__c" .jnull)
  let hasProducts :=
    (match salesforce_data with
      | .jobj fields => (fields.lookup "Products__c").isSome
      | _ => false) && products?.truthy
  let opportunity_id := (← salesforce_data.getD "Id" .jnull).asStr
  let opp_amount := (JVal.orElse (← salesforce_data.getD "Amount" (.jnum 0)) (.jnum 0)).asInt
  return some ⟨account_name, account_id, amount, close_date_str, probability,
    stage, hasProducts, toProducts products?, opportunity_id, opp_amount,
    salesforce_data⟩

/-- The database half of `SalesforceSyncService.sync_opportunity`:
`Customer` get_or_create/update keyed by `salesforce_account_id`, then
`SalesforceOpportunity` get_or_create/update keyed by `salesforce_id`. -/
def applyOpp (s : SFState) (now : Nat) (today : String) (e : ExtractedOpp) :
    Except PyErr (SFState × Option Bool) := do
  let health_score := calculate_health_score e.probability e.stage
  let close_date := if isYmdDate e.close_date_str then e.close_date_str else today
  -- Customer.objects.get_or_create(salesforce_account_id=account_id, ...)
  let (customers, nextId, customer, customer_created) ←
    match s.customers.filter (·.salesforce_account_id = e.account_id) with
    | [] =>
        let c : Customer :=
          ⟨s.nextCustomerId, e.account_name, map_industry_from_account e.account_name,
           e.amount, health_score, close_date, e.account_id, true, "", false,
           (if e.hasProducts then e.products else []), now⟩
        Except.ok (s.customers ++ [c], s.nextCustomerId + 1, c, true)
    | [c] => Except.ok (s.customers, s.nextCustomerId, c, false)
    | _ :: _ :: _ => Except.error .multipleObjectsReturned
  let customers :=
    if customer_created then customers
    else customers.map (fun c =>
      if c.id = customer.id then
        { c with name := e.account_name, arr := e.amount, health_score := health_score,
                 renewal_date := close_date, salesforce_synced := true,
                 products := (if e.hasProducts then e.products else c.products),
                 last_updated := now }
      else c)
  let opp : SFOpp :=
    ⟨e.opportunity_id, customer.id, e.stage, e.probability, e.opp_amount, e.raw⟩
  -- SalesforceOpportunity.objects.get_or_create(salesforce_id=opportunity_id, ...)
  match s.opps.filter (·.salesforce_id = e.opportunity_id) with
  | [] =>
      return ({ customers := customers, opps := s.opps ++ [opp],
                nextCustomerId := nextId }, some true)
  | [o] =>
      let os := s.opps.map (fun x => if x.salesforce_id = o.salesforce_id then opp else x)
      return ({ customers := customers, opps := os,
                nextCustomerId := nextId }, some (customer_created || false))
  | _ :: _ :: _ => Except.error .multipleObjectsReturned

/-- `SalesforceSyncService.sync_opportunity`: `none` result means the
record was skipped (`return None`); `some created` mirrors the returned
`created` flag (`customer_created or opp_created`). An exception leaves
the state unchanged (`transaction.atomic`). -/
def sync_opportunity (s : SFState) (now : Nat) (today : String)
    (salesforce_data : JVal) : Except PyErr (SFState × Option Bool) := do
  match ← extractOpp salesforce_data with
  | none => return (s, none)
  | some e => applyOpp s now today e

/-- `SalesforceSyncService.sync_all_opportunities`: no per-record
exception handling — a raising record aborts the loop; non-`None`
results are appended. Returns the final state, the number of appended
results, and the propagated exception if any. -/
def sync_all_opportunities (s : SFState) (now : Nat) (today : String) :
    List JVal → SFState × Nat × Option PyErr
  | [] => (s, 0, none)
  | d :: ds =>
      match sync_opportunity s now today d with
      | .error e => (s, 0, some e)
      | .ok (s', r) =>
          let (s'', n, e) := sync_all_opportunities s' now today ds
          (s'', (if r.isSome then 1 else 0) + n, e)

end Salesforce

/-! ## Connector/metadata sync (C3, C4, C6)

`BaseIntegrationSyncService.sync_record` from
`integrations/sync_service.py` over the `IntegrationConnector` /
`IntegrationMetadata` tables of `integrations/models.py`, including

* the stray `IntegrationMetadata.objects.update_or_create(id=None, ...)`
  call, which inserts a fresh (orphan) metadata row on every invocation,
* the `unique_together = [['company', 'type', 'external_id']]` database
  constraint: an insert that collides with any existing row (active or
  not) raises `IntegrityError`, and `transaction.atomic` rolls the whole
  record back. -/

namespace Integrations

/-- A row of the `IntegrationMetadata` table. -/
structure IntegrationMetadata where
  id : Nat
  raw_data : JVal
  extracted_fields : List (String × JVal)
  api_version : String

/-- A row of the `IntegrationConnector` table. -/
structure IntegrationConnector where
  id : Nat
  company : Nat
  metadataId : Nat
  type : String
  external_id : String
  is_active : Bool

/-- The state `sync_record` reads/writes. -/
structure IntState where
  connectors : List IntegrationConnector
  metadatas : List IntegrationMetadata
  nextConnectorId : Nat
  nextMetadataId : Nat

/-- The empty connector/metadata database. -/
def IntState.empty : IntState := ⟨[], [], 0, 0⟩

/-- The `unique_together` tuple of two connector rows coincides. -/
def sameTuple (a b : IntegrationConnector) : Prop :=
  a.company = b.company ∧ a.type = b.type ∧ a.external_id = b.external_id

instance : DecidablePred fun p : IntegrationConnector × IntegrationConnector =>
    sameTuple p.1 p.2 := fun _ => by unfold sameTuple; infer_instance

/-- `BaseIntegrationSyncService.sync_record` for a service with
`integration_type = itype` and `api_version`. Returns the connector id
and the `created` flag; `IntegrityError` (unique-constraint collision
with an inactive row) leaves the state unchanged. -/
def sync_record (itype api_version : String) (s : IntState)
    (company : Nat) (external_id : String) (raw_api_response : JVal)
    (extracted_fields : List (String × JVal)) :
    Except PyErr (IntState × Nat × Bool) := do
  -- update_or_create(id=None, ...): id=None matches nothing, so this
  -- always inserts a fresh metadata row (never linked to a connector)
  let orphan : IntegrationMetadata :=
    ⟨s.nextMetadataId, raw_api_response,
     (if extracted_fields.isEmpty then [] else extracted_fields), api_version⟩
  let s := { s with metadatas := s.metadatas ++ [orphan],
                    nextMetadataId := s.nextMetadataId + 1 }
  -- IntegrationConnector.objects.filter(company, type, external_id,
  -- is_active=True).first(); Meta.ordering is ['-created_at'], so the
  -- most recently inserted match comes first
  let actives := s.connectors.filter (fun c =>
    c.company = company ∧ c.type = itype ∧ c.external_id = external_id ∧ c.is_active)
  match actives.getLast? with
  | some connector =>
      -- update the linked metadata in place; extracted_fields only when truthy
      let ms := s.metadatas.map (fun m =>
        if m.id = connector.metadataId then
          { m with raw_data := raw_api_response,
                   extracted_fields :=
                     (if extracted_fields.isEmpty then m.extracted_fields
                      else extracted_fields),
                   api_version := api_version }
        else m)
      return ({ s with metadatas := ms }, connector.id, false)
  | none =>
      let metadata : IntegrationMetadata :=
        ⟨s.nextMetadataId, raw_api_response,
         (if extracted_fields.isEmpty then [] else extracted_fields), api_version⟩
      let connector : IntegrationConnector :=
        ⟨s.nextConnectorId, company, metadata.id, itype, external_id, true⟩
      -- unique_together [['company', 'type', 'external_id']]: collision
      -- with any existing row (e.g. an inactive one) raises
      if s.connectors.any (fun c => c.company = company ∧ c.type = itype ∧
          c.external_id = external_id) then
        throw .integrityError
      return ({ s with metadatas := s.metadatas ++ [metadata],
                       connectors := s.connectors ++ [connector],
                       nextMetadataId := s.nextMetadataId + 1,
                       nextConnectorId := s.nextConnectorId + 1 },
              connector.id, true)

/-- Iterated `sync_record` over a batch of `(company, external_id, raw,
extracted)` records, with the rollback-and-abort semantics of the
callers that have no per-record handler. -/
def sync_record_batch (itype api_version : String) (s : IntState) :
    List (Nat × String × JVal × List (String × JVal)) →
      IntState × Nat × Option PyErr
  | [] => (s, 0, none)
  | (company, ext, raw, ex) :: ds =>
      match sync_record itype api_version s company ext raw ex with
      | .error e => (s, 0, some e)
      | .ok (s', _, _) =>
          let (s'', n, e) := sync_record_batch itype api_version s' ds
          (s'', n + 1, e)

end Integrations

/-! ## Example deal sync (C4)

`ExampleSalesforceSyncService.sync_opportunity` from
`integrations/example_sync.py`: the in-repo composition of a canonical
customer upsert (keyed by name, ARR overwritten on every sync) with
`sync_record`, matching the spec's "Deal" scenario. -/

namespace ExampleSync

open Integrations

/-- The state the example deal sync reads/writes. -/
structure ExState where
  customers : List Customer
  nextCustomerId : Nat
  ints : IntState

/-- The empty state. -/
def ExState.empty : ExState := ⟨[], 0, IntState.empty⟩

/-- `ExampleSalesforceSyncService._map_industry`. -/
def exMapIndustry (account_name : String) : String :=
  let l := account_name.toLower
  if ["tech", "software"].any (fun w => icontains l w) then "technology" else "other"

/-- `ExampleSalesforceSyncService._calculate_health_score`. -/
def exCalculateHealthScore (probability : Int) (stage : String) : Health :=
  if stage = "Closed Won" then .healthy
  else if stage = "Closed Lost" then .critical
  else if probability ≥ 75 then .healthy
  else if probability ≥ 50 then .at_risk
  else .critical

/-- `ExampleSalesforceSyncService.extract_important_fields` (keys only;
always a non-empty dict, which is what `sync_record`'s truthiness test
on `extracted_fields` observes). -/
def extract_important_fields (salesforce_data : JVal) :
    Except PyErr (List (String × JVal)) := do
  let account ← salesforce_data.getD "Account" (.jobj [])
  return [("opportunity_name", ← salesforce_data.getD "Name" (.jstr "")),
          ("account_name", ← account.getD "Name" (.jstr "")),
          ("stage", ← salesforce_data.getD "StageName" (.jstr "")),
          ("amount", JVal.orElse (← salesforce_data.getD "Amount" (.jnum 0))
            (← salesforce_data.getD "Amount_USD__c" (.jnum 0))),
          ("probability", ← salesforce_data.getD "Probability" (.jnum 0)),
          ("close_date", ← salesforce_data.getD "CloseDate" (.jstr "")),
          ("opportunity_csm", ← salesforce_data.getD "Opportunity_CSM__c" (.jstr ""))]

/-- `ExampleSalesforceSyncService.sync_opportunity` (the service is
constructed with `integration_type='SALESFORCE'`, `api_version='v58.0'`;
both are kept as parameters of the embedding). -/
def example_sync_opportunity (itype api_version : String) (s : ExState)
    (now : Nat) (today : String) (salesforce_data : JVal) :
    Except PyErr (ExState × Nat × Bool) := do
  let account ← salesforce_data.getD "Account" (.jobj [])
  let account_name := (← account.getD "Name" (.jstr "")).asStr
  let amount := (JVal.orElse (← salesforce_data.getD "Amount" (.jnum 0))
    (← salesforce_data.getD "Amount_USD__c" (.jnum 0))).asInt
  let close_date_str := (← salesforce_data.getD "CloseDate" (.jstr "")).asStr
  let probability := (JVal.orElse (← salesforce_data.getD "Probability" (.jnum 0))
    (.jnum 0)).asInt
  let stage := (← salesforce_data.getD "StageName" (.jstr "")).asStr
  let close_date := if isYmdDate close_date_str then close_date_str else today
  -- Customer.objects.get_or_create(name=account_name, defaults=...)
  let (customers, nextId, customer) ←
    match s.customers.filter (·.name = account_name) with
    | [] =>
        let c : Customer :=
          ⟨s.nextCustomerId, account_name, exMapIndustry account_name, amount,
           exCalculateHealthScore probability stage, close_date,
           "", false, "", false, [], now⟩
        pure (s.customers ++ [c], s.nextCustomerId + 1, c)
    | [c] => pure (s.customers, s.nextCustomerId, c)
    | _ :: _ :: _ => throw .multipleObjectsReturned
  -- unconditional update: customer.arr, customer.renewal_date, save()
  let customer := { customer with arr := amount, renewal_date := close_date,
                                  last_updated := now }
  let customers := customers.map (fun c => if c.id = customer.id then customer else c)
  let extracted ← extract_important_fields salesforce_data
  let opportunity_id := (← salesforce_data.getD "Id" .jnull).asStr
  let (ints, connectorId, created) ←
    sync_record itype api_version s.ints customer.id opportunity_id
      salesforce_data extracted
  return (⟨customers, nextId, ints⟩, connectorId, created)

end ExampleSync

/-! ## Vector reindex path (C8, C10)

`customers/signals.py` (post-save hook) and
`customers/vector_services.py` (`CustomerVectorService`). External
behaviour — availability of the Pinecone manager, the embedding call,
the upsert/delete/query calls — is supplied as an explicit outcome
environment; the Python `try/except` blocks become matches on those
outcomes. -/

namespace Vectors

/-- Outcomes of the external vector-infrastructure calls during one
service invocation. `embedOutcome`'s `.ok []` models
`generate_embedding` returning a falsy (empty/None) embedding. -/
structure PineconeEnv where
  managerAvailable : Bool
  indexAvailable : Bool
  embedOutcome : Except String (List Int)
  upsertOutcome : Except String Bool
  deleteOutcome : Except String Bool
  queryError : Option String

/-- `create_customer_text_representation`, basic-field part (the
metric/feedback/meeting context is elided: no claim observes the text,
which is consumed only by the embedding provider modelled in
`PineconeEnv`). -/
def create_customer_text_representation (c : Customer) : String :=
  "Company: " ++ c.name ++ " | Industry: " ++ c.industry ++
  " | Annual Recurring Revenue: $" ++ toString c.arr

/-- `CustomerVectorService.add_customer_to_vector_db`: the body of its
`try` block, which can propagate an external exception. -/
def addCustomerBody (env : PineconeEnv) (c : Customer) : Except String Bool := do
  let _text := create_customer_text_representation c
  let embedding ← env.embedOutcome
  if embedding.isEmpty then return false
  let response ← env.upsertOutcome
  if response then return true else return false

/-- `CustomerVectorService.add_customer_to_vector_db`: availability
guard, then the `try` body with `except Exception: ... return False`. -/
def add_customer_to_vector_db (env : PineconeEnv) (c : Customer) : Bool :=
  if !(env.managerAvailable && env.indexAvailable) then false
  else
    match addCustomerBody env c with
    | .ok b => b
    | .error _ => false

/-- `CustomerVectorService.remove_customer_from_vector_db`. -/
def remove_customer_from_vector_db (env : PineconeEnv) (_customer_id : Nat) : Bool :=
  if !env.managerAvailable then false
  else
    match env.deleteOutcome with
    | .ok true => true
    | .ok false => false
    | .error _ => false

/-- `customers/signals.py::customer_post_save`: enqueue a create/update
reindex task; every enqueue exception is caught and logged. The result
is what the signal handler propagates back into `Customer.save()`. -/
def customer_post_save (created : Bool)
    (delayAdd delayUpdate : Except String Unit) : Except String Unit :=
  match (if created then delayAdd else delayUpdate) with
  | .ok _ => Except.ok ()
  | .error _ => Except.ok ()

/-- `customers/signals.py::customer_post_delete`. -/
def customer_post_delete (delayRemove : Except String Unit) : Except String Unit :=
  match delayRemove with
  | .ok _ => Except.ok ()
  | .error _ => Except.ok ()

/-- A canonical `Customer.save()` together with its post-save signal:
the row is written first; the hook's outcome is whatever
`customer_post_save` propagates. -/
def customer_save_with_hook (table : List Customer) (c : Customer)
    (delayAdd delayUpdate : Except String Unit) :
    List Customer × Except String Unit :=
  let created := !(table.any (·.id = c.id))
  let table' :=
    if created then table ++ [c]
    else table.map (fun x => if x.id = c.id then c else x)
  (table', customer_post_save created delayAdd delayUpdate)

/-- Pinecone metadata values (`generate_customer_metadata` stores
numbers and strings). -/
inductive MVal
  | mint (i : Int)
  | mstr (s : String)
  deriving DecidableEq

/-- One vector-store record: stable id plus metadata. -/
structure VectorEntry where
  vid : String
  metadata : List (String × MVal)
  deriving DecidableEq

/-- A metadata filter condition (the `{'$ne': v}` / equality shapes the
service builds). -/
inductive FilterCond
  | ne (v : MVal)
  | eq (v : MVal)
  deriving DecidableEq

/-- The vector store's filter contract (spec §6): a record matches when
every keyed condition holds of its metadata; a record lacking the key
does not match. -/
def condHolds : Option MVal → FilterCond → Bool
  | none, _ => false
  | some x, .ne v => x != v
  | some x, .eq v => x == v

/-- A record matches a filter dict. -/
def matchesFilter (e : VectorEntry) (f : List (String × FilterCond)) : Bool :=
  f.all (fun kc => condHolds (e.metadata.lookup kc.1) kc.2)

/-- Python dict assignment `filter_dict[k] = c`: overwrite the key. -/
def setKey (f : List (String × FilterCond)) (k : String) (c : FilterCond) :
    List (String × FilterCond) :=
  (k, c) :: f.filter (fun kc => kc.1 ≠ k)

/-- One formatted entry of `find_similar_customers`' result list. -/
structure SimilarCustomer where
  customer_id : Option MVal
  name : Option MVal
  similarity_score : Int
  deriving DecidableEq

/-- The filter dict `find_similar_customers` sends to the store:
caller criteria plus the self-exclusion condition. -/
def findSimilarFilter (filter_criteria : List (String × FilterCond))
    (c : Customer) : List (String × FilterCond) :=
  setKey filter_criteria "customer_id" (.ne (.mint (c.id : Int)))

/-- `CustomerVectorService.find_similar_customers`: availability guard,
query-embedding guard, self-exclusion filter, store query (modelled by
the store honouring the filter contract and returning at most `top_k`
ranked matches), result formatting; any raised exception is caught and
yields `[]`. -/
def find_similar_customers (env : PineconeEnv) (store : List VectorEntry)
    (customer : Customer) (top_k : Nat)
    (filter_criteria : List (String × FilterCond)) : List SimilarCustomer :=
  if !(env.managerAvailable && env.indexAvailable) then []
  else
    match env.embedOutcome with
    | .error _ => []
    | .ok query_embedding =>
        if query_embedding.isEmpty then []
        else
          match env.queryError with
          | some _ => []
          | none =>
              let filter_dict := findSimilarFilter filter_criteria customer
              let response := (store.filter (matchesFilter · filter_dict)).take top_k
              response.map (fun m =>
                ⟨m.metadata.lookup "customer_id", m.metadata.lookup "name", 0⟩)

end Vectors

/-! ## Reindex retry tasks (C9)

`customers/tasks.py`: the three per-event-type Celery tasks and their
retry policies (`max_retries`, `countdown`). A task invocation either
returns a success/failed record, returns an error record
(`Customer.DoesNotExist`), or raises; a raise within the retry budget
requeues the task after `countdown(retries)` seconds, and after the
budget is exhausted the task returns the `{'status': 'error', ...}`
record. -/

namespace Tasks

/-- A task's retry policy: the Celery `max_retries` bound and the
`countdown` delay scheduled before attempt `retries + 1`. -/
structure RetryPolicy where
  max_retries : Nat
  countdown : Nat → Nat

/-- `add_customer_to_vectors` (create events):
`@shared_task(bind=True, max_retries=3)`,
`self.retry(countdown=60 * (self.request.retries + 1))`. -/
def add_customer_to_vectors_policy : RetryPolicy :=
  ⟨3, fun retries => 60 * (retries + 1)⟩

/-- `update_customer_vectors` (update events): `max_retries=2`, same
growing countdown. -/
def update_customer_vectors_policy : RetryPolicy :=
  ⟨2, fun retries => 60 * (retries + 1)⟩

/-- `remove_customer_vectors` (delete events): `max_retries=1`,
`self.retry(countdown=30)`. -/
def remove_customer_vectors_policy : RetryPolicy :=
  ⟨1, fun _ => 30⟩

/-- What one attempt of the task body does. -/
inductive AttemptOutcome
  | ok (success : Bool)
  | notFound
  | raises
  deriving DecidableEq

/-- The record a task invocation ends with. `errorRecord` is the
returned `{'status': 'error', ...}` dict. -/
inductive TaskStatus
  | success
  | failed
  | errorRecord
  deriving DecidableEq

/-- Executing a task under a policy: attempt `retries`; a raise within
budget schedules a retry after `countdown retries`; outside the budget
the error record is returned. `fuel` only bounds the recursion and is
always instantiated to `max_retries + 1`, which the `retries <
max_retries` guard never exhausts. -/
def runTaskAux (p : RetryPolicy) (outcome : Nat → AttemptOutcome) :
    Nat → Nat → List Nat × TaskStatus
  | _, 0 => ([], .errorRecord)
  | retries, fuel + 1 =>
      match outcome retries with
      | .ok true => ([], .success)
      | .ok false => ([], .failed)
      | .notFound => ([], .errorRecord)
      | .raises =>
          if retries < p.max_retries then
            let rest := runTaskAux p outcome (retries + 1) fuel
            (p.countdown retries :: rest.1, rest.2)
          else ([], .errorRecord)

/-- A full task invocation: the scheduled delays and the final record. -/
def runTask (p : RetryPolicy) (outcome : Nat → AttemptOutcome) :
    List Nat × TaskStatus :=
  runTaskAux p outcome 0 (p.max_retries + 1)

end Tasks

/-! # Theorems -/

section Helpers

/-- `Except` bind on an `ok` value, for unfolding the embedded `do`
chains. -/
theorem except_bind_ok {ε α β : Type} (a : α) (f : α → Except ε β) :
    (Except.ok a >>= f) = f a := rfl

/-- `Except` bind on an error, for unfolding the embedded `do` chains. -/
theorem except_bind_error {ε α β : Type} (e : ε) (f : α → Except ε β) :
    ((Except.error e : Except ε α) >>= f) = Except.error e := rfl

end Helpers

section C7

example : Gainsight.map_status_to_internal "Churned" = "churned" := rfl
example : Gainsight.map_status_to_internal "1P02QMPSFL3BWDIS1RYGPG1AC9SQ8BQGDO1W" = "active" := rfl
example : Salesforce.map_stage_to_internal "Ready to Close" = "ready_to_close" := rfl
example : Salesforce.map_stage_to_internal "Garbage" = "qualified" := rfl

/-- A long string cannot be a key of a mapping table whose keys are all
short human labels. -/
theorem lookup_long_none (m : List (String × String)) (s : String)
    (hall : ∀ kv ∈ m, kv.1.length ≤ 20) (h : 20 < s.length) :
    m.lookup s = none := by
  induction m with
  | nil => rfl
  | cons kv rest ih =>
      obtain ⟨k, v⟩ := kv
      have hk : k.length ≤ 20 := hall (k, v) (List.mem_cons_self _ _)
      have hne : (s == k) = false := by
        refine beq_false_of_ne ?_
        intro he
        rw [he] at h
        omega
      simp only [List.lookup, hne]
      exact ih (fun kv hm => hall kv (List.mem_cons_of_mem _ hm))

/-- A string longer than 20 characters is not a Salesforce stage key. -/
theorem sf_stage_lookup_long_none (s : String) (h : 20 < s.length) :
    Salesforce.stage_mapping.lookup s = none :=
  lookup_long_none _ s (by decide) h

/-- A string longer than 20 characters is not a Gainsight industry key. -/
theorem gs_industry_lookup_long_none (s : String) (h : 20 < s.length) :
    Gainsight.industry_mapping.lookup s = none :=
  lookup_long_none _ s (by decide) h

/-- C7: the field normalizers are total: a tabled value maps to its
canonical enum value, an untabled value maps to the explicit default,
and an opaque identifier (a string longer than 20 characters) maps to
the default — for the Gainsight status, stage and industry mappers and
the Salesforce stage mapper. -/
theorem normalizers_total_with_explicit_defaults (s v : String) :
    ((s, v) ∈ Gainsight.status_mapping → Gainsight.map_status_to_internal s = v) ∧
    (Gainsight.status_mapping.lookup s = none →
      Gainsight.map_status_to_internal s = "active") ∧
    (20 < s.length → Gainsight.map_status_to_internal s = "active") ∧
    ((s, v) ∈ Gainsight.stage_mapping → Gainsight.map_stage_to_internal s = v) ∧
    (Gainsight.stage_mapping.lookup s = none →
      Gainsight.map_stage_to_internal s = "new_customer") ∧
    (20 < s.length → Gainsight.map_stage_to_internal s = "new_customer") ∧
    ((s, v) ∈ Gainsight.industry_mapping → Gainsight.map_industry_to_internal s = v) ∧
    (Gainsight.industry_mapping.lookup s = none →
      Gainsight.map_industry_to_internal s = "other") ∧
    (20 < s.length → Gainsight.map_industry_to_internal s = "other") ∧
    ((s, v) ∈ Salesforce.stage_mapping → Salesforce.map_stage_to_internal s = v) ∧
    (Salesforce.stage_mapping.lookup s = none →
      Salesforce.map_stage_to_internal s = "qualified") ∧
    (20 < s.length → Salesforce.map_stage_to_internal s = "qualified") := by
  refine ⟨?_, ?_, ?_, ?_, ?_, ?_, ?_, ?_, ?_, ?_, ?_, ?_⟩
  · intro h
    simp only [Gainsight.status_mapping, List.mem_cons, List.not_mem_nil, or_false,
      Prod.mk.injEq] at h
    rcases h with hp | hp | hp | hp | hp <;> (obtain ⟨rfl, rfl⟩ := hp; rfl)
  · intro h
    simp [Gainsight.map_status_to_internal, h]
  · intro h
    simp [Gainsight.map_status_to_internal, h]
  · intro h
    simp only [Gainsight.stage_mapping, List.mem_cons, List.not_mem_nil, or_false,
      Prod.mk.injEq] at h
    rcases h with hp | hp | hp | hp | hp | hp | hp <;>
      (obtain ⟨rfl, rfl⟩ := hp; rfl)
  · intro h
    simp [Gainsight.map_stage_to_internal, h]
  · intro h
    simp [Gainsight.map_stage_to_internal, h]
  · intro h
    simp only [Gainsight.industry_mapping, List.mem_cons, List.not_mem_nil, or_false,
      Prod.mk.injEq] at h
    rcases h with hp | hp | hp | hp | hp | hp <;>
      (obtain ⟨rfl, rfl⟩ := hp; rfl)
  · intro h
    simp [Gainsight.map_industry_to_internal, h]
  · intro h
    simp [Gainsight.map_industry_to_internal, gs_industry_lookup_long_none s h]
  · intro h
    simp only [Salesforce.stage_mapping, List.mem_cons, List.not_mem_nil, or_false,
      Prod.mk.injEq] at h
    rcases h with hp | hp | hp | hp | hp | hp | hp | hp <;>
      (obtain ⟨rfl, rfl⟩ := hp; rfl)
  · intro h
    simp [Salesforce.map_stage_to_internal, h]
  · intro h
    simp [Salesforce.map_stage_to_internal, sf_stage_lookup_long_none s h]

/-- Closed witness for the normalizer theorem at concrete inputs. -/
theorem normalizers_total_with_explicit_defaults_witness :
    Gainsight.map_status_to_internal "Churned" = "churned" ∧
    Gainsight.map_status_to_internal "1P02QMPSFL3BWDIS1RYGPG1AC9S" = "active" ∧
    Salesforce.map_stage_to_internal "Garbage" = "qualified" :=
  ⟨(normalizers_total_with_explicit_defaults "Churned" "churned").1 (by decide),
   ((normalizers_total_with_explicit_defaults "1P02QMPSFL3BWDIS1RYGPG1AC9S" "").2.2.1)
     (by decide),
   ((normalizers_total_with_explicit_defaults "Garbage" "").2.2.2.2.2.2.2.2.2.2.1)
     (by decide)⟩

end C7

section C5

/-- The Salesforce instantiation of the ordered health rule list, in the
claim's order (terminal-negative, terminal-positive, probability ≥ 75,
probability ≥ 50) with terminal default `critical` (the calculator's
`else` branch). -/
def sfHealthRules : List (HealthRule (Int × String)) :=
  [⟨fun x => x.2 == "closed_lost", .critical⟩,
   ⟨fun x => x.2 == "closed_won", .healthy⟩,
   ⟨fun x => decide (x.1 ≥ 75), .healthy⟩,
   ⟨fun x => decide (x.1 ≥ 50), .at_risk⟩]

/-- The Gainsight instantiation of the ordered health rule list
(terminal-negative, terminal-positive/expansion with active status,
tenure ≥ 12 months with active status) with default `at_risk`. -/
def gsHealthRules : List (HealthRule (String × String × Option Int)) :=
  [⟨fun x => x.1 == "churned", .critical⟩,
   ⟨fun x => x.1 == "active" && (x.2.1 == "expansion" || x.2.1 == "renewal"), .healthy⟩,
   ⟨fun x => x.1 == "active" && Gainsight.lifetimeAtLeast12 x.2.2, .healthy⟩]

example : Salesforce.calculate_health_score 80 "qualified" = .healthy := rfl
example : Salesforce.calculate_health_score 10 "closed_won" = .healthy := rfl
example : Gainsight.calculate_health_score "at_risk" "expansion" (some 20) = .at_risk := rfl
example : Gainsight.calculate_health_score "active" "adoption" (some 20) = .healthy := rfl

/-- Every health value is one of the three canonical choices. -/
theorem health_trichotomy (h : Health) :
    h = .healthy ∨ h = .at_risk ∨ h = .critical := by
  cases h <;> simp

/-- C5: both health calculators are total ordered-rule functions: each
equals first-match evaluation of its ordered rule list (its own
instantiation of the shared shape: terminal states first, then numeric
confidence respectively tenure, then the default), and every defined
input maps to exactly one of healthy/at_risk/critical. -/
theorem health_score_first_match_total (probability : Int)
    (stage status gstage : String) (lifetime : Option Int) :
    (Salesforce.calculate_health_score probability stage
      = firstMatch sfHealthRules .critical (probability, stage)) ∧
    (Gainsight.calculate_health_score status gstage lifetime
      = firstMatch gsHealthRules .at_risk (status, gstage, lifetime)) ∧
    (Salesforce.calculate_health_score probability stage = .healthy ∨
     Salesforce.calculate_health_score probability stage = .at_risk ∨
     Salesforce.calculate_health_score probability stage = .critical) ∧
    (Gainsight.calculate_health_score status gstage lifetime = .healthy ∨
     Gainsight.calculate_health_score status gstage lifetime = .at_risk ∨
     Gainsight.calculate_health_score status gstage lifetime = .critical) := by
  refine ⟨?_, ?_, health_trichotomy _, health_trichotomy _⟩
  · simp only [Salesforce.calculate_health_score, firstMatch, sfHealthRules]
    split_ifs <;> simp_all <;> omega
  · simp only [Gainsight.calculate_health_score, firstMatch, gsHealthRules]
    split_ifs <;> simp_all

end C5

section C9

/-- The number of scheduled retries never exceeds the remaining budget. -/
theorem runTaskAux_length_le (p : Tasks.RetryPolicy) (o : Nat → Tasks.AttemptOutcome) :
    ∀ f r, (Tasks.runTaskAux p o r f).1.length ≤ p.max_retries - r := by
  intro f
  induction f with
  | zero => intro r; simp [Tasks.runTaskAux]
  | succ f ih =>
      intro r
      simp only [Tasks.runTaskAux]
      cases o r with
      | ok success => cases success <;> simp
      | notFound => simp
      | raises =>
          by_cases hr : r < p.max_retries
          · have := ih (r + 1)
            simp only [hr, if_true, List.length_cons]
            omega
          · simp [hr]

/-- The scheduled delays are a contiguous run of the policy's countdown
function. -/
theorem runTaskAux_delays_range (p : Tasks.RetryPolicy) (o : Nat → Tasks.AttemptOutcome) :
    ∀ f r, ∃ k, (Tasks.runTaskAux p o r f).1
      = (List.range k).map (fun i => p.countdown (r + i)) := by
  intro f
  induction f with
  | zero => intro r; exact ⟨0, by simp [Tasks.runTaskAux]⟩
  | succ f ih =>
      intro r
      simp only [Tasks.runTaskAux]
      cases o r with
      | ok success => exact ⟨0, by cases success <;> simp⟩
      | notFound => exact ⟨0, by simp⟩
      | raises =>
          by_cases hr : r < p.max_retries
          · obtain ⟨k, hk⟩ := ih (r + 1)
            refine ⟨k + 1, ?_⟩
            simp only [hr, if_true, hk, List.range_succ_eq_map, List.map_cons,
              List.map_map]
            refine congrArg₂ List.cons (by simp) ?_
            refine List.map_congr_left ?_
            intro i _
            simp only [Function.comp_apply]
            congr 1
            omega
          · exact ⟨0, by simp [hr]⟩

/-- Contiguous delays under a strictly increasing countdown are strictly
increasing. -/
theorem runTask_delays_pairwise_lt (p : Tasks.RetryPolicy)
    (o : Nat → Tasks.AttemptOutcome)
    (hmono : ∀ i j, i < j → p.countdown i < p.countdown j) :
    ((Tasks.runTask p o).1).Pairwise (· < ·) := by
  obtain ⟨k, hk⟩ := runTaskAux_delays_range p o (p.max_retries + 1) 0
  unfold Tasks.runTask
  rw [hk]
  refine List.Pairwise.map _ ?_ (List.pairwise_lt_range k)
  intro a b hab
  exact hmono _ _ (by omega)

/-- A list with at most one element is vacuously strictly increasing. -/
theorem pairwise_of_length_le_one {l : List Nat} (h : l.length ≤ 1) :
    l.Pairwise (· < ·) := by
  match l, h with
  | [], _ => exact List.Pairwise.nil
  | [a], _ => simp

/-- C9: each reindex task retries a bounded number of times (3 for
create, 2 for update, 1 for delete), with strictly growing scheduled
delays, with the budget and delay differentiated per event type, and an
exhausted retry budget ends in the returned error record (the delays for
an always-raising body being 60/120/180s, 60/120s and 30s
respectively). -/
theorem reindex_tasks_bounded_growing_retry (outcome : Nat → Tasks.AttemptOutcome) :
    ((Tasks.runTask Tasks.add_customer_to_vectors_policy outcome).1.length ≤ 3) ∧
    ((Tasks.runTask Tasks.update_customer_vectors_policy outcome).1.length ≤ 2) ∧
    ((Tasks.runTask Tasks.remove_customer_vectors_policy outcome).1.length ≤ 1) ∧
    ((Tasks.runTask Tasks.add_customer_to_vectors_policy outcome).1.Pairwise (· < ·)) ∧
    ((Tasks.runTask Tasks.update_customer_vectors_policy outcome).1.Pairwise (· < ·)) ∧
    ((Tasks.runTask Tasks.remove_customer_vectors_policy outcome).1.Pairwise (· < ·)) ∧
    (Tasks.add_customer_to_vectors_policy.max_retries ≠
       Tasks.update_customer_vectors_policy.max_retries ∧
     Tasks.update_customer_vectors_policy.max_retries ≠
       Tasks.remove_customer_vectors_policy.max_retries ∧
     Tasks.add_customer_to_vectors_policy.max_retries ≠
       Tasks.remove_customer_vectors_policy.max_retries ∧
     Tasks.add_customer_to_vectors_policy.countdown 0 ≠
       Tasks.remove_customer_vectors_policy.countdown 0) ∧
    (Tasks.runTask Tasks.add_customer_to_vectors_policy (fun _ => .raises)
      = ([60, 120, 180], .errorRecord)) ∧
    (Tasks.runTask Tasks.update_customer_vectors_policy (fun _ => .raises)
      = ([60, 120], .errorRecord)) ∧
    (Tasks.runTask Tasks.remove_customer_vectors_policy (fun _ => .raises)
      = ([30], .errorRecord)) := by
  refine ⟨?_, ?_, ?_, ?_, ?_, ?_, ⟨by decide, by decide, by decide, by decide⟩,
    rfl, rfl, rfl⟩
  · simpa using runTaskAux_length_le Tasks.add_customer_to_vectors_policy outcome 4 0
  · simpa using runTaskAux_length_le Tasks.update_customer_vectors_policy outcome 3 0
  · simpa using runTaskAux_length_le Tasks.remove_customer_vectors_policy outcome 2 0
  · exact runTask_delays_pairwise_lt _ outcome (by intro i j hij; simp [Tasks.add_customer_to_vectors_policy]; omega)
  · exact runTask_delays_pairwise_lt _ outcome (by intro i j hij; simp [Tasks.update_customer_vectors_policy]; omega)
  · exact pairwise_of_length_le_one
      (by simpa using runTaskAux_length_le Tasks.remove_customer_vectors_policy outcome 2 0)

end C9

section C8

example :
    Vectors.add_customer_to_vector_db
      ⟨true, true, .error "connection refused", .ok true, .ok true, none⟩
      ⟨0, "A", "technology", 1, .healthy, "2024-01-01", "", false, "", false, [], 0⟩
      = false := rfl

/-- C8: a canonical customer write never blocks on the vector
infrastructure: the post-save/post-delete hooks swallow every enqueue
error (the write itself is applied unconditionally before the hook runs),
and the reindex service operations report failure by returning `false`
for every failure mode — missing manager/index, embedding error, empty
embedding, upsert error or falsy upsert ack, delete error — instead of
propagating an exception. -/
theorem canonical_write_never_blocked_by_vector_path
    (table : List Customer) (c cust : Customer) (cid : Nat)
    (delayAdd delayUpdate delayRemove : Except String Unit)
    (env : Vectors.PineconeEnv) (e : String) :
    ((Vectors.customer_save_with_hook table c delayAdd delayUpdate).2 = .ok ()) ∧
    ((Vectors.customer_save_with_hook table c delayAdd delayUpdate).1
      = (Vectors.customer_save_with_hook table c (.error e) (.error e)).1) ∧
    (Vectors.customer_post_delete delayRemove = .ok ()) ∧
    (Vectors.add_customer_to_vector_db { env with managerAvailable := false } cust = false) ∧
    (Vectors.add_customer_to_vector_db { env with indexAvailable := false } cust = false) ∧
    (Vectors.add_customer_to_vector_db { env with embedOutcome := .error e } cust = false) ∧
    (Vectors.add_customer_to_vector_db { env with embedOutcome := .ok [] } cust = false) ∧
    (Vectors.add_customer_to_vector_db { env with upsertOutcome := .error e } cust = false) ∧
    (Vectors.add_customer_to_vector_db { env with upsertOutcome := .ok false } cust = false) ∧
    (Vectors.remove_customer_from_vector_db { env with managerAvailable := false } cid = false) ∧
    (Vectors.remove_customer_from_vector_db { env with deleteOutcome := .error e } cid = false) ∧
    (Vectors.remove_customer_from_vector_db { env with deleteOutcome := .ok false } cid = false) := by
  obtain ⟨ma, ia, emb, ups, del, qe⟩ := env
  refine ⟨?_, rfl, ?_, ?_, ?_, ?_, ?_, ?_, ?_, ?_, ?_, ?_⟩
  · unfold Vectors.customer_save_with_hook Vectors.customer_post_save
    rcases delayAdd with _ | _ <;> rcases delayUpdate with _ | _ <;>
      by_cases h : table.any (·.id = c.id) <;> simp [h]
  · unfold Vectors.customer_post_delete
    rcases delayRemove with _ | _ <;> rfl
  · rfl
  · unfold Vectors.add_customer_to_vector_db
    cases ma <;> rfl
  · unfold Vectors.add_customer_to_vector_db Vectors.addCustomerBody
    cases ma <;> cases ia <;> rfl
  · unfold Vectors.add_customer_to_vector_db Vectors.addCustomerBody
    cases ma <;> cases ia <;> rfl
  · unfold Vectors.add_customer_to_vector_db Vectors.addCustomerBody
    cases ma <;> cases ia <;> try rfl
    rcases emb with _ | (_ | ⟨x, xs⟩) <;> rfl
  · unfold Vectors.add_customer_to_vector_db Vectors.addCustomerBody
    cases ma <;> cases ia <;> try rfl
    rcases emb with _ | (_ | ⟨x, xs⟩) <;> rfl
  · unfold Vectors.remove_customer_from_vector_db
    rfl
  · unfold Vectors.remove_customer_from_vector_db
    cases ma <;> rfl
  · unfold Vectors.remove_customer_from_vector_db
    cases ma <;> rfl

end C8

section C10

example :
    Vectors.find_similar_customers ⟨true, true, .ok [1], .ok true, .ok true, none⟩
      [⟨"customer_5", [("customer_id", .mint 5)]⟩,
       ⟨"customer_3", [("customer_id", .mint 3)]⟩]
      ⟨3, "A", "technology", 1, .healthy, "2024-01-01", "", false, "", false, [], 0⟩
      10 []
      = [⟨some (.mint 5), none, 0⟩] := rfl

/-- C10: `find_similar_customers` always installs a
`customer_id != queried id` condition in the filter it sends to the
vector store (overwriting any caller-supplied `customer_id` criterion),
and consequently no entry of any result list it returns carries the
queried customer's id. -/
theorem find_similar_never_returns_self (env : Vectors.PineconeEnv)
    (store : List Vectors.VectorEntry) (customer : Customer) (top_k : Nat)
    (criteria : List (String × Vectors.FilterCond)) :
    ((Vectors.findSimilarFilter criteria customer).lookup "customer_id"
      = some (.ne (.mint (customer.id : Int)))) ∧
    (∀ r ∈ Vectors.find_similar_customers env store customer top_k criteria,
      r.customer_id ≠ some (.mint (customer.id : Int))) := by
  constructor
  · simp [Vectors.findSimilarFilter, Vectors.setKey, List.lookup]
  · intro r hr
    unfold Vectors.find_similar_customers at hr
    split at hr
    · simp at hr
    split at hr
    · simp at hr
    split at hr
    · simp at hr
    split at hr
    · simp at hr
    obtain ⟨m, hm, hrm⟩ := List.mem_map.mp hr
    have hmem := List.mem_of_mem_take hm
    have hmf := (List.mem_filter.mp hmem).2
    unfold Vectors.matchesFilter at hmf
    have hcond := (List.all_eq_true.mp hmf)
      ("customer_id", Vectors.FilterCond.ne (.mint (customer.id : Int)))
      (by simp [Vectors.findSimilarFilter, Vectors.setKey])
    rcases hlk : m.metadata.lookup "customer_id" with _ | x <;>
      rw [hlk] at hcond
    · simp [Vectors.condHolds] at hcond
    · simp only [Vectors.condHolds, bne_iff_ne, ne_eq,
        decide_eq_true_eq] at hcond
      subst hrm
      simpa [hlk] using hcond

/-- Closed witness: with one foreign entry and one self entry in the
store, the self entry is filtered out. -/
theorem find_similar_never_returns_self_witness :
    (⟨some (.mint 5), none, 0⟩ : Vectors.SimilarCustomer).customer_id
      ≠ some (.mint (3 : Int)) :=
  (find_similar_never_returns_self ⟨true, true, .ok [1], .ok true, .ok true, none⟩
    [⟨"customer_5", [("customer_id", .mint 5)]⟩,
     ⟨"customer_3", [("customer_id", .mint 3)]⟩]
    ⟨3, "A", "technology", 1, .healthy, "2024-01-01", "", false, "", false, [], 0⟩
    10 []).2 ⟨some (.mint 5), none, 0⟩ (by decide)

end C10

section C6

/-- The database-level `unique_together` invariant: no two connector
rows (active or not) share `(company, type, external_id)`. -/
def allUnique (s : Integrations.IntState) : Prop :=
  s.connectors.Pairwise (fun a b => ¬ Integrations.sameTuple a b)

/-- The claim's invariant: no two active connector rows share
`(company, type, external_id)`. -/
def activeUnique (s : Integrations.IntState) : Prop :=
  (s.connectors.filter (·.is_active)).Pairwise
    (fun a b => ¬ Integrations.sameTuple a b)

/-- Connector/metadata states reachable from an empty database via
committed `sync_record` calls (a raising call rolls back and leaves the
previous reachable state). -/
inductive ReachableInt : Integrations.IntState → Prop
  | init : ReachableInt Integrations.IntState.empty
  | step {s s' : Integrations.IntState} {itype api : String} {co : Nat}
      {ext : String} {raw : JVal} {exf : List (String × JVal)}
      {cid : Nat} {cr : Bool} :
      ReachableInt s →
      Integrations.sync_record itype api s co ext raw exf = .ok (s', cid, cr) →
      ReachableInt s'

/-- `sync_record` preserves the database uniqueness invariant: the
update branch does not touch the connector table, and the create branch
is guarded by the unique-constraint check. -/
theorem sync_record_preserves_allUnique {itype api : String}
    {s s' : Integrations.IntState} {co : Nat} {ext : String} {raw : JVal}
    {exf : List (String × JVal)} {cid : Nat} {cr : Bool}
    (hu : allUnique s)
    (h : Integrations.sync_record itype api s co ext raw exf = .ok (s', cid, cr)) :
    allUnique s' := by
  unfold Integrations.sync_record at h
  simp only [pure, Except.pure, throw, throwThe, MonadExceptOf.throw] at h
  split at h
  · -- update branch: the connector table is untouched
    injection h with h'
    rw [Prod.mk.injEq, Prod.mk.injEq] at h'
    obtain ⟨rfl, -, -⟩ := h'
    simpa [allUnique] using hu
  · split at h
    · cases h
    · -- create branch, guarded by the unique-constraint check
      rename_i hany
      injection h with h'
      rw [Prod.mk.injEq, Prod.mk.injEq] at h'
      obtain ⟨rfl, -, -⟩ := h'
      simp only [allUnique, List.pairwise_append]
      refine ⟨hu, List.pairwise_singleton _ _, ?_⟩
      intro a ha b hb
      simp only [List.mem_singleton] at hb
      subst hb
      intro hsame
      obtain ⟨h1, h2, h3⟩ := hsame
      exact hany (List.any_eq_true.mpr ⟨a, ha, by simp [h1, h2, h3]⟩)

/-- Uniqueness among all connector rows implies uniqueness among the
active ones. -/
theorem allUnique_activeUnique {s : Integrations.IntState} (h : allUnique s) :
    activeUnique s :=
  List.Pairwise.sublist (List.filter_sublist _) h

/-- Every reachable connector/metadata state satisfies the database
uniqueness invariant. -/
theorem reachable_allUnique {s : Integrations.IntState} (h : ReachableInt s) :
    allUnique s := by
  induction h with
  | init => simp [allUnique, Integrations.IntState.empty]
  | step _ hstep ih => exact sync_record_preserves_allUnique ih hstep

/-- C6: every `sync_record` operation preserves connector uniqueness,
and in every reachable database state no two active connector rows share
the `(canonical entity, source type, external id)` tuple. -/
theorem connector_uniqueness_invariant :
    (∀ (itype api : String) (s s' : Integrations.IntState) (co : Nat)
       (ext : String) (raw : JVal) (exf : List (String × JVal))
       (cid : Nat) (cr : Bool),
       allUnique s →
       Integrations.sync_record itype api s co ext raw exf = .ok (s', cid, cr) →
       allUnique s') ∧
    (∀ s, ReachableInt s → activeUnique s) :=
  ⟨fun _ _ _ _ _ _ _ _ _ _ hu h => sync_record_preserves_allUnique hu h,
   fun _ h => allUnique_activeUnique (reachable_allUnique h)⟩

/-- Closed witness: one committed `sync_record` call from the empty
database preserves uniqueness, and the empty state satisfies the active
invariant. -/
theorem connector_uniqueness_invariant_witness :
    allUnique ⟨[⟨0, 0, 1, "SALESFORCE", "X1", true⟩],
               [⟨0, .jobj [], [], "v58.0"⟩, ⟨1, .jobj [], [], "v58.0"⟩], 1, 2⟩ ∧
    activeUnique Integrations.IntState.empty :=
  ⟨connector_uniqueness_invariant.1 "SALESFORCE" "v58.0"
     Integrations.IntState.empty
     ⟨[⟨0, 0, 1, "SALESFORCE", "X1", true⟩],
      [⟨0, .jobj [], [], "v58.0"⟩, ⟨1, .jobj [], [], "v58.0"⟩], 1, 2⟩
     0 "X1" (.jobj []) [] 0 true
     (by simp [allUnique, Integrations.IntState.empty]) rfl,
   connector_uniqueness_invariant.2 _ ReachableInt.init⟩

end C6

section C2

/-- A well-formed mock opportunity record. -/
def goodOpp (i : Nat) : JVal :=
  .jobj [("Id", .jstr ("OPP" ++ toString i)),
         ("AccountId", .jstr ("ACC" ++ toString i)),
         ("Account", .jobj [("Name", .jstr ("Account " ++ toString i))]),
         ("Amount", .jnum 100000),
         ("Probability", .jnum 80),
         ("StageName", .jstr "Qualified"),
         ("CloseDate", .jstr "2024-12-01")]

/-- A malformed record: a bare string where a dict is expected, so the
first `.get(...)` raises `AttributeError`. -/
def badOpp : JVal := .jstr "corrupted"

/-- A 10-record batch whose fourth record is malformed. -/
def tenRecordBatch : List JVal :=
  [goodOpp 0, goodOpp 1, goodOpp 2, badOpp, goodOpp 4, goodOpp 5, goodOpp 6,
   goodOpp 7, goodOpp 8, goodOpp 9]

/-- The empty Salesforce-side database. -/
def emptySF : Salesforce.SFState := ⟨[], [], 0⟩

/-- A raising record aborts `sync_all_opportunities`: given a prefix that
syncs cleanly, the run over prefix ++ bad :: suffix commits the prefix,
propagates the exception and never processes the suffix. -/
theorem sync_all_opportunities_aborts_at_bad {now : Nat} {today : String}
    {bad : JVal} {e : PyErr}
    (hbad : ∀ t, Salesforce.sync_opportunity t now today bad = .error e) :
    ∀ (b1 : List JVal) (s : Salesforce.SFState) (b2 : List JVal)
      (s1 : Salesforce.SFState) (n1 : Nat),
      Salesforce.sync_all_opportunities s now today b1 = (s1, n1, none) →
      Salesforce.sync_all_opportunities s now today (b1 ++ bad :: b2)
        = (s1, n1, some e) := by
  intro b1
  induction b1 with
  | nil =>
      intro s b2 s1 n1 h
      obtain ⟨rfl, rfl, -⟩ := Prod.mk.injEq .. ▸ h
      simp [Salesforce.sync_all_opportunities, hbad s]
  | cons d ds ih =>
      intro s b2 s1 n1 h
      simp only [Salesforce.sync_all_opportunities, List.cons_append] at h ⊢
      cases hstep : Salesforce.sync_opportunity s now today d with
      | error e2 => rw [hstep] at h; simp at h
      | ok p =>
          obtain ⟨s', r⟩ := p
          rw [hstep] at h
          rcases hrun : Salesforce.sync_all_opportunities s' now today ds
            with ⟨a, b, c⟩
          simp only [hrun, Prod.mk.injEq] at h
          obtain ⟨rfl, rfl, rfl⟩ := h
          exact congrArg
            (fun x => (x.1, (if r.isSome = true then 1 else 0) + x.2.1, x.2.2))
            (ih s' b2 a b hrun)

/-- A state-independently raising record is caught and skipped by the
Celery task loop `sync_all_gainsight_companies`: the run is the run of
the batch with the record removed. -/
theorem gainsight_task_skips_bad {now : Nat} {today : String}
    {gbad : JVal} {e : PyErr}
    (hbad : ∀ t, Gainsight.sync_company t now today gbad = .error e) :
    ∀ (g1 : List JVal) (gs : Gainsight.GSState) (g2 : List JVal),
      Gainsight.sync_all_gainsight_companies gs now today (g1 ++ gbad :: g2)
        = Gainsight.sync_all_gainsight_companies gs now today (g1 ++ g2) := by
  intro g1
  induction g1 with
  | nil =>
      intro gs g2
      simp [Gainsight.sync_all_gainsight_companies, hbad gs]
  | cons d ds ih =>
      intro gs g2
      simp only [Gainsight.sync_all_gainsight_companies, List.cons_append]
      cases hstep : Gainsight.sync_company gs now today d with
      | error e2 => exact ih gs g2
      | ok p =>
          obtain ⟨s', r⟩ := p
          exact congrArg (fun x => (x.1, x.2 + 1)) (ih s' g2)

/-- C2 counterexample: on a concrete 10-record batch whose fourth record
is malformed, `sync_all_opportunities` does not yield 9 successes and 1
counted failure — it propagates the exception after 3 successes, the
remaining 6 well-formed records are never processed (only 3 customers
exist afterwards), and no failure count is produced at all. -/
theorem batch_failure_aborts_not_counted :
    (Salesforce.sync_all_opportunities emptySF 0 "2024-06-01" tenRecordBatch).2
      = (3, some .attributeError) ∧
    (Salesforce.sync_all_opportunities emptySF 0 "2024-06-01" tenRecordBatch).1.customers.length
      = 3 ∧
    ¬ (Salesforce.sync_all_opportunities emptySF 0 "2024-06-01" tenRecordBatch).2
      = (9, none) := by
  refine ⟨by decide, by decide, by decide⟩

/-- C2 amended: in `sync_all_opportunities` (and likewise
`sync_all_companies`) a record failure propagates and aborts the
remaining records without any failure count; only the Gainsight Celery
task loop catches per-record failures and continues, so there one
malformed record in a 10-record batch yields 9 processed records and no
abort. -/
theorem per_record_failure_abort_vs_continue (now : Nat) (today : String)
    (bad gbad : JVal) (e e' : PyErr) (s : Salesforce.SFState)
    (gs : Gainsight.GSState) (b1 b2 g1 g2 : List JVal)
    (s1 : Salesforce.SFState) (n1 : Nat)
    (hbad : ∀ t, Salesforce.sync_opportunity t now today bad = .error e)
    (hgbad : ∀ t, Gainsight.sync_company t now today gbad = .error e')
    (hb1 : Salesforce.sync_all_opportunities s now today b1 = (s1, n1, none)) :
    (Salesforce.sync_all_opportunities s now today (b1 ++ bad :: b2)
      = (s1, n1, some e)) ∧
    (Gainsight.sync_all_gainsight_companies gs now today (g1 ++ gbad :: g2)
      = Gainsight.sync_all_gainsight_companies gs now today (g1 ++ g2)) :=
  ⟨sync_all_opportunities_aborts_at_bad hbad b1 s b2 s1 n1 hb1,
   gainsight_task_skips_bad hgbad g1 gs g2⟩

/-- A well-formed mock Gainsight company record. -/
def goodCompany (i : Nat) : JVal :=
  .jobj [("Name", .jstr ("Company " ++ toString i)),
         ("Gsid", .jstr ("GS" ++ toString i)),
         ("ARR", .jnum 50000),
         ("Industry", .jstr "Technology"),
         ("Status", .jstr "Active"),
         ("Stage", .jstr "Adoption"),
         ("Customer_Lifetime_in_Months", .jnum 24)]

/-- Closed witness for the amended claim: the salesforce run aborts
after its clean 3-record prefix, and the gainsight task loop on a
10-record batch with one raising record processes the other 9. -/
theorem per_record_failure_abort_vs_continue_witness :
    (Salesforce.sync_all_opportunities emptySF 0 "2024-06-01"
        ([goodOpp 0, goodOpp 1, goodOpp 2] ++ badOpp ::
          [goodOpp 4, goodOpp 5, goodOpp 6, goodOpp 7, goodOpp 8, goodOpp 9])
      = ((Salesforce.sync_all_opportunities emptySF 0 "2024-06-01"
            [goodOpp 0, goodOpp 1, goodOpp 2]).1, 3, some .attributeError)) ∧
    (Gainsight.sync_all_gainsight_companies ⟨[], [], 0⟩ 0 "2024-06-01"
        ([goodCompany 0, goodCompany 1, goodCompany 2] ++ badOpp ::
          [goodCompany 4, goodCompany 5, goodCompany 6, goodCompany 7,
           goodCompany 8, goodCompany 9])).2 = 9 := by
  have h := per_record_failure_abort_vs_continue 0 "2024-06-01" badOpp badOpp
    .attributeError .attributeError emptySF ⟨[], [], 0⟩
    [goodOpp 0, goodOpp 1, goodOpp 2]
    [goodOpp 4, goodOpp 5, goodOpp 6, goodOpp 7, goodOpp 8, goodOpp 9]
    [goodCompany 0, goodCompany 1, goodCompany 2]
    [goodCompany 4, goodCompany 5, goodCompany 6, goodCompany 7,
     goodCompany 8, goodCompany 9]
    (Salesforce.sync_all_opportunities emptySF 0 "2024-06-01"
      [goodOpp 0, goodOpp 1, goodOpp 2]).1 3
    (fun _ => rfl) (fun _ => rfl) rfl
  exact ⟨h.1, by rw [h.2]; decide⟩

end C2

section C4

/-- The "Deal" payload of the spec's resync scenario: company
"Acme Corp" under external id `X1` with the given ARR. -/
def acmePayload (amount : Int) : JVal :=
  .jobj [("Id", .jstr "X1"),
         ("Name", .jstr "Acme Renewal"),
         ("Account", .jobj [("Name", .jstr "Acme Corp")]),
         ("Amount", .jnum amount),
         ("Probability", .jnum 60),
         ("StageName", .jstr "Qualified"),
         ("CloseDate", .jstr "2025-01-01"),
         ("Opportunity_CSM__c", .jstr "Sam")]

/-- Sync `X1` at ARR $100k, then resync the same `X1` at ARR $120k, from
an empty database; returns the final state and the two `created`
flags. -/
def acmeScenario : Except PyErr (ExampleSync.ExState × Bool × Bool) := do
  let (s1, _, created1) ← ExampleSync.example_sync_opportunity "DEAL" "v58.0"
    ExampleSync.ExState.empty 0 "2024-01-01" (acmePayload 100000)
  let (s2, _, created2) ← ExampleSync.example_sync_opportunity "DEAL" "v58.0"
    s1 1 "2024-01-01" (acmePayload 120000)
  return (s2, created1, created2)

/-- C4: after the second sync of `X1` the final state has exactly one
canonical customer row, named "Acme Corp" with ARR $120k, exactly one
connector row — active, keyed ("Acme Corp"'s row, DEAL, X1), created by
the first sync and updated (not re-created) by the second — and exactly
one metadata row linked to that connector, whose raw payload is the
second fetch's payload. -/
theorem acme_deal_resync_scenario :
    (acmeScenario.map (fun r =>
      (r.1.customers.map (fun c => (c.name, c.arr)),
       (r.1.ints.connectors.filter (fun c =>
          c.company = 0 ∧ c.type = "DEAL" ∧ c.external_id = "X1" ∧
          c.is_active)).length,
       r.1.ints.connectors.length,
       r.1.customers.length,
       r.2.1, r.2.2))
      = .ok ([("Acme Corp", (120000 : Int))], 1, 1, 1, true, false)) ∧
    (acmeScenario.map (fun r =>
       r.1.ints.connectors.map (fun c =>
         (r.1.ints.metadatas.filter (·.id = c.metadataId)).map (·.raw_data)))
      = .ok [[acmePayload 120000]]) :=
  ⟨rfl, rfl⟩

end C4

section C1

/-- A Gong meeting payload with the given account and deal names. -/
def gongMeetingPayload (account_name deal_name : String) : JVal :=
  .jobj [("id", .jstr "M1"),
         ("title", .jstr "Sync call"),
         ("account", .jobj [("name", .jstr account_name)]),
         ("deal", .jobj [("name", .jstr deal_name)])]

/-- C1 counterexample: a record with the usable name "NewCo" and no
matching canonical row does not create a new canonical customer — the
Gong resolver returns no customer and the sync skips the record, leaving
the database unchanged. -/
theorem gong_no_match_creates_no_customer :
    Gong.match_meeting_to_customer ⟨[], [], 0⟩ (gongMeetingPayload "NewCo" "")
      = .ok none ∧
    Gong.sync_meeting ⟨[], [], 0⟩ (gongMeetingPayload "NewCo" "")
      = .ok (⟨[], [], 0⟩, none) :=
  ⟨rfl, rfl⟩

/-- `pyMaxBy` returns an element of its input list. -/
theorem pyMaxBy_mem (key : Customer → Nat) :
    ∀ (l : List Customer) (c : Customer), pyMaxBy key l = some c → c ∈ l := by
  have haux : ∀ (l : List Customer) (best : Customer),
      l.foldl (fun best x => if key x > key best then x else best) best = best ∨
      l.foldl (fun best x => if key x > key best then x else best) best ∈ l := by
    intro l
    induction l with
    | nil => intro best; exact Or.inl rfl
    | cons d ds ih =>
        intro best
        simp only [List.foldl_cons]
        by_cases hd : key d > key best
        · rw [if_pos hd]
          rcases ih d with h | h
          · exact Or.inr (by rw [h]; exact List.mem_cons_self _ _)
          · exact Or.inr (List.mem_cons_of_mem _ h)
        · rw [if_neg hd]
          rcases ih best with h | h
          · exact Or.inl h
          · exact Or.inr (List.mem_cons_of_mem _ h)
  intro l c h
  cases l with
  | nil => cases h
  | cons d ds =>
      simp only [pyMaxBy, Option.some.injEq] at h
      subst h
      rcases haux ds d with h' | h'
      · rw [h']; exact List.mem_cons_self _ _
      · exact List.mem_cons_of_mem _ h'

/-- Unfolding of the Gong matcher on a payload with the given account
and deal names: definitional, stated once so the amended-claim proofs
can rewrite under it. -/
theorem gong_match_unfold (db : Gong.GongDB) (an dn : String) :
    Gong.match_meeting_to_customer db (gongMeetingPayload an dn) =
      (if an = "" then Except.ok none else
        if ((customerQS db.customers).filter (·.name = an)).length = 1 then
          Except.ok ((customerQS db.customers).filter (·.name = an)).head?
        else if ((customerQS db.customers).filter (·.name = an)).length > 1 then
          if !(((customerQS db.customers).filter (·.name = an)).filter
                (fun c => Gong.meetingCount db c = 0)).isEmpty then
            match (((customerQS db.customers).filter (·.name = an)).filter
                (fun c => Gong.meetingCount db c = 0)).filter
                (·.industry = "healthcare") with
            | c :: _ => Except.ok (some c)
            | [] => Except.ok (pyMaxBy (·.last_updated)
                (((customerQS db.customers).filter (·.name = an)).filter
                  (fun c => Gong.meetingCount db c = 0)))
          else
            match ((customerQS db.customers).filter (·.name = an)).filter
                (·.industry = "healthcare") with
            | c :: _ => Except.ok (some c)
            | [] => Except.ok (sortBy (fun a b => b.last_updated ≤ a.last_updated)
                ((customerQS db.customers).filter (·.name = an))).head?
        else
          match (customerQS db.customers).filter (fun c => icontains c.name an) with
          | c :: _ => Except.ok (some c)
          | [] =>
              if dn = "" then Except.ok none
              else
                match (customerQS db.customers).filter
                    (fun c => icontains c.name dn) with
                | c :: _ => Except.ok (some c)
                | [] => Except.ok none) := rfl

/-- The Gong sync never writes the canonical customer table. -/
theorem gong_sync_meeting_customers_unchanged (db : Gong.GongDB) (p : JVal)
    (r : Gong.GongDB × Option (Nat × Bool)) (h : Gong.sync_meeting db p = .ok r) :
    r.1.customers = db.customers := by
  unfold Gong.sync_meeting at h
  split at h
  · exact congrArg (fun x => x.1.customers) (Except.ok.inj h).symm
  rcases hm : Gong.match_meeting_to_customer db p with e | co
  · rw [hm] at h; cases h
  rw [hm] at h
  simp only [except_bind_ok] at h
  cases co with
  | none => exact congrArg (fun x => x.1.customers) (Except.ok.inj h).symm
  | some customer =>
      rcases hid : p.getD "id" .jnull with e | v1
      · rw [hid] at h; cases h
      rw [hid] at h
      rcases hcid : p.getD "callId" (.jstr "") with e | v2
      · rw [hcid] at h; cases h
      rw [hcid] at h
      simp only [except_bind_ok] at h
      split at h
      · exact congrArg (fun x => x.1.customers) (Except.ok.inj h).symm
      split at h
      · exact congrArg (fun x => x.1.customers) (Except.ok.inj h).symm
      · exact congrArg (fun x => x.1.customers) (Except.ok.inj h).symm
      · cases h

/-- C1 amended: the two identity resolvers as implemented.

The Gong resolver matches by exact name; with a unique match that row
wins; among duplicate names it prefers a candidate with zero Gong
meetings, preferring healthcare among those; with no exact match it
falls back to case-insensitive name containment, then deal-name
containment, and otherwise resolves to no customer — the record is
skipped and no canonical customer is ever created by the Gong sync.

The Gainsight resolver matches by stored `gainsight_company_id`, then by
exact unique name; with no match it creates a new canonical customer,
and an ambiguous name (or ambiguous stored id) raises
`MultipleObjectsReturned` instead of tie-breaking. Neither resolver
consults connector rows. -/
theorem identity_resolvers_amended :
    -- Gong (a): unique exact name match wins
    (∀ (db : Gong.GongDB) (an dn : String) (c : Customer), an ≠ "" →
       (customerQS db.customers).filter (·.name = an) = [c] →
       Gong.match_meeting_to_customer db (gongMeetingPayload an dn) = .ok (some c)) ∧
    -- Gong (b): duplicate names with a meeting-free candidate: the match
    -- is a meeting-free candidate, healthcare-first
    (∀ (db : Gong.GongDB) (an dn : String), an ≠ "" →
       1 < ((customerQS db.customers).filter (·.name = an)).length →
       ∀ without, without = ((customerQS db.customers).filter (·.name = an)).filter
           (fun c => Gong.meetingCount db c = 0) →
       without ≠ [] →
       ∃ c, Gong.match_meeting_to_customer db (gongMeetingPayload an dn)
              = .ok (some c) ∧ c ∈ without ∧
            ((∃ w ∈ without, w.industry = "healthcare") →
              c.industry = "healthcare")) ∧
    -- Gong (c): no exact match falls back to containment matching and
    -- then to no customer at all
    (∀ (db : Gong.GongDB) (an dn : String), an ≠ "" →
       (customerQS db.customers).filter (·.name = an) = [] →
       ((∀ c rest, (customerQS db.customers).filter (fun c => icontains c.name an)
            = c :: rest →
          Gong.match_meeting_to_customer db (gongMeetingPayload an dn) = .ok (some c)) ∧
        ((customerQS db.customers).filter (fun c => icontains c.name an) = [] →
          dn = "" →
          Gong.match_meeting_to_customer db (gongMeetingPayload an dn) = .ok none) ∧
        ((customerQS db.customers).filter (fun c => icontains c.name an) = [] →
          (customerQS db.customers).filter (fun c => icontains c.name dn) = [] →
          Gong.match_meeting_to_customer db (gongMeetingPayload an dn) = .ok none))) ∧
    -- Gong (d): the sync never creates canonical customers
    (∀ (db : Gong.GongDB) (p : JVal) (r : Gong.GongDB × Option (Nat × Bool)),
       Gong.sync_meeting db p = .ok r → r.1.customers = db.customers) ∧
    -- Gainsight (e): stored-id match wins, no write to the table
    (∀ (customers : List Customer) (nextId now : Nat)
       (gsid name industry : String) (arr : Int) (health : Health)
       (renewal : String) (c : Customer), gsid ≠ "" →
       customers.filter (·.gainsight_company_id = gsid) = [c] →
       Gainsight.resolveCustomer customers nextId now gsid name industry arr
         health renewal = .ok (customers, nextId, c, false)) ∧
    -- Gainsight (f): no id match, unique exact name match wins
    (∀ (customers : List Customer) (nextId now : Nat)
       (gsid name industry : String) (arr : Int) (health : Health)
       (renewal : String) (c : Customer),
       customers.filter (·.gainsight_company_id = gsid) = [] →
       customers.filter (·.name = name) = [c] →
       Gainsight.resolveCustomer customers nextId now gsid name industry arr
         health renewal = .ok (customers, nextId, c, false)) ∧
    -- Gainsight (g): no match at all creates a new canonical customer
    (∀ (customers : List Customer) (nextId now : Nat)
       (gsid name industry : String) (arr : Int) (health : Health)
       (renewal : String),
       customers.filter (·.gainsight_company_id = gsid) = [] →
       customers.filter (·.name = name) = [] →
       Gainsight.resolveCustomer customers nextId now gsid name industry arr
         health renewal
         = .ok (customers ++
             [⟨nextId, name, industry, arr, health, renewal, "", false, gsid,
               true, [], now⟩], nextId + 1,
             ⟨nextId, name, industry, arr, health, renewal, "", false, gsid,
               true, [], now⟩, true)) ∧
    -- Gainsight (h): an ambiguous name raises instead of tie-breaking
    (∀ (customers : List Customer) (nextId now : Nat)
       (gsid name industry : String) (arr : Int) (health : Health)
       (renewal : String) (c1 c2 : Customer) (rest : List Customer),
       customers.filter (·.gainsight_company_id = gsid) = [] →
       customers.filter (·.name = name) = c1 :: c2 :: rest →
       Gainsight.resolveCustomer customers nextId now gsid name industry arr
         health renewal = .error .multipleObjectsReturned) := by
  refine ⟨?_, ?_, ?_, gong_sync_meeting_customers_unchanged, ?_, ?_, ?_, ?_⟩
  · -- (a)
    intro db an dn c hne hf
    rw [gong_match_unfold, if_neg hne, hf]
    rfl
  · -- (b)
    intro db an dn hne hlen without hwo hwne
    rw [gong_match_unfold, if_neg hne]
    rw [if_neg (by omega), if_pos (by omega)]
    rw [← hwo]
    rw [if_pos (by simpa using hwne)]
    rcases hhc : without.filter (·.industry = "healthcare") with _ | ⟨c, rest⟩
    · rcases hmax : pyMaxBy (·.last_updated) without with _ | c0
      · cases without with
        | nil => exact absurd rfl hwne
        | cons a l => cases hmax
      · refine ⟨c0, ?_, pyMaxBy_mem _ without c0 hmax, ?_⟩
        · simp [hhc, hmax]
        · rintro ⟨w, hw, hwh⟩
          have hmem : w ∈ without.filter (·.industry = "healthcare") :=
            List.mem_filter.mpr ⟨hw, by simp [hwh]⟩
          rw [hhc] at hmem
          cases hmem
    · refine ⟨c, by rw [hhc], ?_, fun _ => ?_⟩
      · exact List.mem_of_mem_filter (hhc ▸ List.mem_cons_self c rest)
      · have := List.mem_filter.mp (hhc ▸ List.mem_cons_self c rest)
        simpa using this.2
  · -- (c)
    intro db an dn hne hf
    refine ⟨?_, ?_, ?_⟩
    · intro c rest hpart
      rw [gong_match_unfold, if_neg hne, hf]
      simp [hpart]
    · intro hpart hdn
      rw [gong_match_unfold, if_neg hne, hf]
      simp [hpart, hdn]
    · intro hpart hdeal
      rw [gong_match_unfold, if_neg hne, hf]
      by_cases hdn : dn = "" <;> simp [hpart, hdeal, hdn]
  · -- (e)
    intro customers nextId now gsid name industry arr health renewal c hne hf
    unfold Gainsight.resolveCustomer
    rw [if_pos hne, hf]
    rfl
  · -- (f)
    intro customers nextId now gsid name industry arr health renewal c hid hf
    unfold Gainsight.resolveCustomer
    by_cases hne : gsid ≠ ""
    · rw [if_pos hne, hid]
      simp only [except_bind_ok, hf]
      rfl
    · rw [if_neg hne]
      simp only [except_bind_ok, hf]
      rfl
  · -- (g)
    intro customers nextId now gsid name industry arr health renewal hid hf
    unfold Gainsight.resolveCustomer
    by_cases hne : gsid ≠ ""
    · rw [if_pos hne, hid]
      simp only [except_bind_ok, hf]
      rfl
    · rw [if_neg hne]
      simp only [except_bind_ok, hf]
      rfl
  · -- (h)
    intro customers nextId now gsid name industry arr health renewal c1 c2 rest
      hid hf
    unfold Gainsight.resolveCustomer
    by_cases hne : gsid ≠ ""
    · rw [if_pos hne, hid]
      simp only [except_bind_ok, hf]
      rfl
    · rw [if_neg hne]
      simp only [except_bind_ok, hf]
      rfl

/-- Closed witness: the Gong resolver returns a uniquely-named existing
row, and the Gainsight resolver creates a fresh row when nothing
matches. -/
theorem identity_resolvers_amended_witness :
    Gong.match_meeting_to_customer
      ⟨[⟨7, "Acme", "technology", 100, .healthy, "2024-01-01", "", false, "",
         false, [], 5⟩], [], 0⟩
      (gongMeetingPayload "Acme" "")
      = .ok (some ⟨7, "Acme", "technology", 100, .healthy, "2024-01-01", "",
          false, "", false, [], 5⟩) ∧
    Gainsight.resolveCustomer [] 0 3 "GS1" "NewCo" "other" 10 .healthy
        "2024-01-01"
      = .ok ([⟨0, "NewCo", "other", 10, .healthy, "2024-01-01", "", false,
          "GS1", true, [], 3⟩], 1,
          ⟨0, "NewCo", "other", 10, .healthy, "2024-01-01", "", false, "GS1",
           true, [], 3⟩, true) :=
  ⟨identity_resolvers_amended.1
     ⟨[⟨7, "Acme", "technology", 100, .healthy, "2024-01-01", "", false, "",
        false, [], 5⟩], [], 0⟩
     "Acme" ""
     ⟨7, "Acme", "technology", 100, .healthy, "2024-01-01", "", false, "",
      false, [], 5⟩
     (by decide) rfl,
   identity_resolvers_amended.2.2.2.2.2.2.1 [] 0 3 "GS1" "NewCo" "other" 10
     .healthy "2024-01-01" rfl rfl⟩

end C1

section C3

/-- The length of an equality-keyed filter is the key's count in the
projected key list. -/
theorem filter_eq_length_count {α : Type} (l : List α) (f : α → String) (a : String) :
    (l.filter (fun x => f x = a)).length = (l.map f).count a := by
  induction l with
  | nil => rfl
  | cons c cs ih =>
      by_cases h : f c = a
      · simp [List.count_cons, h, ih]
      · simp [List.count_cons, h, ih, Ne.symm h]

/-- Projections stable under a row transformation factor through it. -/
theorem map_proj_stable {α β : Type} {g : α → α} {f : α → β} (l : List α)
    (h : ∀ x, f (g x) = f x) : (l.map g).map f = l.map f := by
  rw [List.map_map]
  exact List.map_congr_left (fun x _ => h x)

/-- The salesforce account ids of the customer table rows, in row
order. -/
def custKeys (s : Salesforce.SFState) : List String :=
  s.customers.map (·.salesforce_account_id)

/-- The salesforce opportunity ids of the opportunity table rows. -/
def oppKeys (s : Salesforce.SFState) : List String :=
  s.opps.map (·.salesforce_id)

/-- Multiplicity of an account id in the customer table. -/
def custMult (s : Salesforce.SFState) (a : String) : Nat :=
  (custKeys s).count a

/-- Multiplicity of an opportunity id in the opportunity table. -/
def oppMult (s : Salesforce.SFState) (i : String) : Nat :=
  (oppKeys s).count i

/-- Key-list equivalence of two salesforce states: enough to determine
all branching of `applyOpp`, and hence of a whole run. -/
def SFSim (s t : Salesforce.SFState) : Prop :=
  custKeys s = custKeys t ∧ oppKeys s = oppKeys t

theorem SFSim_refl (s : Salesforce.SFState) : SFSim s s := ⟨rfl, rfl⟩

theorem SFSim.lengths {s t : Salesforce.SFState} (h : SFSim s t) :
    s.customers.length = t.customers.length ∧ s.opps.length = t.opps.length := by
  constructor
  · have := congrArg List.length h.1
    simpa [custKeys] using this
  · have := congrArg List.length h.2
    simpa [oppKeys] using this

theorem SFSim.custFilterLength {s t : Salesforce.SFState} (h : SFSim s t)
    (a : String) :
    (s.customers.filter (fun c => c.salesforce_account_id = a)).length
      = (t.customers.filter (fun c => c.salesforce_account_id = a)).length := by
  rw [filter_eq_length_count, filter_eq_length_count]
  exact congrArg (List.count a) h.1

theorem SFSim.oppFilterLength {s t : Salesforce.SFState} (h : SFSim s t)
    (i : String) :
    (s.opps.filter (fun o => o.salesforce_id = i)).length
      = (t.opps.filter (fun o => o.salesforce_id = i)).length := by
  rw [filter_eq_length_count, filter_eq_length_count]
  exact congrArg (List.count i) h.2

/-- The customer-update pass of `applyOpp` never changes account ids. -/
theorem custKeys_update_stable (l : List Customer) (cid : Nat) (nm : String)
    (ar : Int) (hs : Health) (cd : String) (hp : Bool) (pr : List String)
    (nw : Nat) :
    (l.map (fun c => if c.id = cid then
        { c with name := nm, arr := ar, health_score := hs,
                 renewal_date := cd, salesforce_synced := true,
                 products := (if hp then pr else c.products),
                 last_updated := nw }
      else c)).map (·.salesforce_account_id) = l.map (·.salesforce_account_id) :=
  map_proj_stable l (fun x => by by_cases hx : x.id = cid <;> simp [hx])

/-- One `applyOpp` step from key-list–equivalent states: both raise the
same exception, or both succeed into key-list–equivalent states. -/
theorem applyOpp_bisim {s t : Salesforce.SFState} (now now' : Nat)
    (today today' : String) (e : Salesforce.ExtractedOpp) (hsim : SFSim s t) :
    (∃ err, Salesforce.applyOpp s now today e = .error err ∧
            Salesforce.applyOpp t now' today' e = .error err) ∨
    (∃ s' t' r r', Salesforce.applyOpp s now today e = .ok (s', r) ∧
                   Salesforce.applyOpp t now' today' e = .ok (t', r') ∧
                   SFSim s' t') := by
  have hclen := hsim.custFilterLength e.account_id
  have holen := hsim.oppFilterLength e.opportunity_id
  unfold Salesforce.applyOpp
  rcases hcs : s.customers.filter (fun c => c.salesforce_account_id = e.account_id)
    with _ | ⟨c1, _ | ⟨c1b, cs1⟩⟩ <;>
    rcases hct : t.customers.filter (fun c => c.salesforce_account_id = e.account_id)
      with _ | ⟨c2, _ | ⟨c2b, cs2⟩⟩ <;>
    rw [hcs, hct] at hclen <;>
    simp only [List.length_nil, List.length_cons] at hclen <;>
    try omega
  · -- both customer tables lack the key: create on both sides
    rw [hcs, hct]
    simp only [except_bind_ok]
    rcases hos : s.opps.filter (fun o => o.salesforce_id = e.opportunity_id)
      with _ | ⟨o1, _ | ⟨o1b, os1⟩⟩ <;>
      rcases hot : t.opps.filter (fun o => o.salesforce_id = e.opportunity_id)
        with _ | ⟨o2, _ | ⟨o2b, os2⟩⟩ <;>
      rw [hos, hot] at holen <;>
      simp only [List.length_nil, List.length_cons] at holen <;>
      try omega
    · rw [hos, hot]
      refine Or.inr ⟨_, _, _, _, rfl, rfl, ?_, ?_⟩
      · have h1 : List.map (fun x : Customer => x.salesforce_account_id) s.customers
            = List.map (fun x : Customer => x.salesforce_account_id) t.customers := hsim.1
        simp [custKeys, h1]
      · have h2 : List.map (fun x : Salesforce.SFOpp => x.salesforce_id) s.opps
            = List.map (fun x : Salesforce.SFOpp => x.salesforce_id) t.opps := hsim.2
        simp [oppKeys, h2]
    · have ho1 : o1.salesforce_id = e.opportunity_id := by
        have := List.mem_filter.mp (hos ▸ List.mem_cons_self o1 [])
        simpa using this.2
      have ho2 : o2.salesforce_id = e.opportunity_id := by
        have := List.mem_filter.mp (hot ▸ List.mem_cons_self o2 [])
        simpa using this.2
      rw [hos, hot]
      refine Or.inr ⟨_, _, _, _, rfl, rfl, ?_, ?_⟩
      · have h1 : List.map (fun x : Customer => x.salesforce_account_id) s.customers
            = List.map (fun x : Customer => x.salesforce_account_id) t.customers := hsim.1
        simp [custKeys, h1]
      · have hs' : (s.opps.map (fun x =>
            if x.salesforce_id = o1.salesforce_id then
              (⟨e.opportunity_id, s.nextCustomerId, e.stage, e.probability,
                e.opp_amount, e.raw⟩ : Salesforce.SFOpp)
            else x)).map (·.salesforce_id) = s.opps.map (·.salesforce_id) :=
          map_proj_stable s.opps (fun x => by
            by_cases hx : x.salesforce_id = o1.salesforce_id
            · simp [hx, ho1]
            · simp [hx])
        have ht' : (t.opps.map (fun x =>
            if x.salesforce_id = o2.salesforce_id then
              (⟨e.opportunity_id, t.nextCustomerId, e.stage, e.probability,
                e.opp_amount, e.raw⟩ : Salesforce.SFOpp)
            else x)).map (·.salesforce_id) = t.opps.map (·.salesforce_id) :=
          map_proj_stable t.opps (fun x => by
            by_cases hx : x.salesforce_id = o2.salesforce_id
            · simp [hx, ho2]
            · simp [hx])
        have h2 : List.map (fun x : Salesforce.SFOpp => x.salesforce_id) s.opps
            = List.map (fun x : Salesforce.SFOpp => x.salesforce_id) t.opps := hsim.2
        simp [oppKeys, hs', ht', h2]
    · rw [hos, hot]
      exact Or.inl ⟨_, rfl, rfl⟩
  · -- both customer tables have the key exactly once: update on both
    rw [hcs, hct]
    simp only [except_bind_ok, Bool.false_eq_true, if_false]
    rcases hos : s.opps.filter (fun o => o.salesforce_id = e.opportunity_id)
      with _ | ⟨o1, _ | ⟨o1b, os1⟩⟩ <;>
      rcases hot : t.opps.filter (fun o => o.salesforce_id = e.opportunity_id)
        with _ | ⟨o2, _ | ⟨o2b, os2⟩⟩ <;>
      rw [hos, hot] at holen <;>
      simp only [List.length_nil, List.length_cons] at holen <;>
      try omega
    · rw [hos, hot]
      refine Or.inr ⟨_, _, _, _, rfl, rfl, ?_, ?_⟩
      · simp only [custKeys]
        rw [custKeys_update_stable, custKeys_update_stable]
        exact hsim.1
      · have h2 : List.map (fun x : Salesforce.SFOpp => x.salesforce_id) s.opps
            = List.map (fun x : Salesforce.SFOpp => x.salesforce_id) t.opps := hsim.2
        simp [oppKeys, h2]
    · have ho1 : o1.salesforce_id = e.opportunity_id := by
        have := List.mem_filter.mp (hos ▸ List.mem_cons_self o1 [])
        simpa using this.2
      have ho2 : o2.salesforce_id = e.opportunity_id := by
        have := List.mem_filter.mp (hot ▸ List.mem_cons_self o2 [])
        simpa using this.2
      rw [hos, hot]
      refine Or.inr ⟨_, _, _, _, rfl, rfl, ?_, ?_⟩
      · simp only [custKeys]
        rw [custKeys_update_stable, custKeys_update_stable]
        exact hsim.1
      · have hs' : (s.opps.map (fun x =>
            if x.salesforce_id = o1.salesforce_id then
              (⟨e.opportunity_id, c1.id, e.stage, e.probability,
                e.opp_amount, e.raw⟩ : Salesforce.SFOpp)
            else x)).map (·.salesforce_id) = s.opps.map (·.salesforce_id) :=
          map_proj_stable s.opps (fun x => by
            by_cases hx : x.salesforce_id = o1.salesforce_id
            · simp [hx, ho1]
            · simp [hx])
        have ht' : (t.opps.map (fun x =>
            if x.salesforce_id = o2.salesforce_id then
              (⟨e.opportunity_id, c2.id, e.stage, e.probability,
                e.opp_amount, e.raw⟩ : Salesforce.SFOpp)
            else x)).map (·.salesforce_id) = t.opps.map (·.salesforce_id) :=
          map_proj_stable t.opps (fun x => by
            by_cases hx : x.salesforce_id = o2.salesforce_id
            · simp [hx, ho2]
            · simp [hx])
        have h2 : List.map (fun x : Salesforce.SFOpp => x.salesforce_id) s.opps
            = List.map (fun x : Salesforce.SFOpp => x.salesforce_id) t.opps := hsim.2
        simp [oppKeys, hs', ht', h2]
    · rw [hos, hot]
      exact Or.inl ⟨_, rfl, rfl⟩
  · -- both ambiguous: MultipleObjectsReturned on both
    rw [hcs, hct]
    exact Or.inl ⟨_, rfl, rfl⟩

/-- A successful `applyOpp` never lowers a key's multiplicity, and
leaves the processed record's keys present. -/
theorem applyOpp_mono {s s' : Salesforce.SFState} {now : Nat} {today : String}
    {e : Salesforce.ExtractedOpp} {r : Option Bool}
    (h : Salesforce.applyOpp s now today e = .ok (s', r)) :
    (∀ a, custMult s a ≤ custMult s' a) ∧ (∀ i, oppMult s i ≤ oppMult s' i) ∧
    1 ≤ custMult s' e.account_id ∧ 1 ≤ oppMult s' e.opportunity_id := by
  unfold Salesforce.applyOpp at h
  rcases hcs : s.customers.filter (fun c => c.salesforce_account_id = e.account_id)
    with _ | ⟨c1, _ | ⟨c1b, cs1⟩⟩ <;> rw [hcs] at h <;>
    [skip; skip; exact absurd h (by simp [except_bind_error])]
  all_goals
    simp only [except_bind_ok] at h
  all_goals
    rcases hos : s.opps.filter (fun o => o.salesforce_id = e.opportunity_id)
      with _ | ⟨o1, _ | ⟨o1b, os1⟩⟩ <;> rw [hos] at h <;>
    [skip; skip; exact absurd h (by simp)]
  -- create/create
  · have hstate := congrArg (fun x : Salesforce.SFState × Option Bool => x.1)
      (Except.ok.inj h)
    obtain rfl : s' = _ := hstate.symm
    refine ⟨fun a => ?_, fun i => ?_, ?_, ?_⟩ <;>
      simp [custMult, oppMult, custKeys, oppKeys, List.count_append]
  -- create customer / update opportunity
  · have ho1 : o1.salesforce_id = e.opportunity_id := by
      have := List.mem_filter.mp (hos ▸ List.mem_cons_self o1 [])
      simpa using this.2
    have hstate := congrArg (fun x : Salesforce.SFState × Option Bool => x.1)
      (Except.ok.inj h)
    obtain rfl : s' = _ := hstate.symm
    have hop : (s.opps.map (fun x =>
        if x.salesforce_id = o1.salesforce_id then
          (⟨e.opportunity_id, s.nextCustomerId, e.stage, e.probability,
            e.opp_amount, e.raw⟩ : Salesforce.SFOpp)
        else x)).map (·.salesforce_id) = s.opps.map (·.salesforce_id) :=
      map_proj_stable s.opps (fun x => by
        by_cases hx : x.salesforce_id = o1.salesforce_id
        · simp [hx, ho1]
        · simp [hx])
    have hpreso : 1 ≤ oppMult s e.opportunity_id := by
      unfold oppMult oppKeys
      rw [← filter_eq_length_count, hos]
      simp
    refine ⟨fun a => ?_, fun i => ?_, ?_, ?_⟩
    · simp [custMult, custKeys, List.count_append]
    · simp only [oppMult, oppKeys]
      rw [hop]
    · simp [custMult, custKeys, List.count_append]
    · simp only [oppMult, oppKeys]
      rw [hop]
      exact hpreso
  -- update customer / create opportunity
  · have hstate := congrArg (fun x : Salesforce.SFState × Option Bool => x.1)
      (Except.ok.inj h)
    obtain rfl : s' = _ := hstate.symm
    have hcu := custKeys_update_stable s.customers c1.id e.account_name e.amount
      (Salesforce.calculate_health_score e.probability e.stage)
      (if isYmdDate e.close_date_str = true then e.close_date_str else today)
      e.hasProducts e.products now
    have hpresc : 1 ≤ custMult s e.account_id := by
      unfold custMult custKeys
      rw [← filter_eq_length_count, hcs]
      simp
    refine ⟨fun a => ?_, fun i => ?_, ?_, ?_⟩
    · simp only [custMult, custKeys, Bool.false_eq_true, if_false]
      rw [hcu]
    · simp [oppMult, oppKeys, List.count_append]
    · simp only [custMult, custKeys, Bool.false_eq_true, if_false]
      rw [hcu]
      exact hpresc
    · simp [oppMult, oppKeys, List.count_append]
  -- update customer / update opportunity
  · have ho1 : o1.salesforce_id = e.opportunity_id := by
      have := List.mem_filter.mp (hos ▸ List.mem_cons_self o1 [])
      simpa using this.2
    have hstate := congrArg (fun x : Salesforce.SFState × Option Bool => x.1)
      (Except.ok.inj h)
    obtain rfl : s' = _ := hstate.symm
    have hcu := custKeys_update_stable s.customers c1.id e.account_name e.amount
      (Salesforce.calculate_health_score e.probability e.stage)
      (if isYmdDate e.close_date_str = true then e.close_date_str else today)
      e.hasProducts e.products now
    have hop : (s.opps.map (fun x =>
        if x.salesforce_id = o1.salesforce_id then
          (⟨e.opportunity_id, c1.id, e.stage, e.probability,
            e.opp_amount, e.raw⟩ : Salesforce.SFOpp)
        else x)).map (·.salesforce_id) = s.opps.map (·.salesforce_id) :=
      map_proj_stable s.opps (fun x => by
        by_cases hx : x.salesforce_id = o1.salesforce_id
        · simp [hx, ho1]
        · simp [hx])
    have hpresc : 1 ≤ custMult s e.account_id := by
      unfold custMult custKeys
      rw [← filter_eq_length_count, hcs]
      simp
    have hpreso : 1 ≤ oppMult s e.opportunity_id := by
      unfold oppMult oppKeys
      rw [← filter_eq_length_count, hos]
      simp
    refine ⟨fun a => ?_, fun i => ?_, ?_, ?_⟩
    · simp only [custMult, custKeys, Bool.false_eq_true, if_false]
      rw [hcu]
    · simp only [oppMult, oppKeys]
      rw [hop]
    · simp only [custMult, custKeys, Bool.false_eq_true, if_false]
      rw [hcu]
      exact hpresc
    · simp only [oppMult, oppKeys]
      rw [hop]
      exact hpreso

/-- When both keys of an extracted record are already present,
`applyOpp` either raises or performs a pure update, preserving the key
lists exactly. -/
theorem applyOpp_at_present {s : Salesforce.SFState} (now : Nat) (today : String)
    (e : Salesforce.ExtractedOpp)
    (hc : 1 ≤ custMult s e.account_id) (ho : 1 ≤ oppMult s e.opportunity_id) :
    (∃ err, Salesforce.applyOpp s now today e = .error err) ∨
    (∃ s' r, Salesforce.applyOpp s now today e = .ok (s', r) ∧ SFSim s' s) := by
  unfold Salesforce.applyOpp
  rcases hcs : s.customers.filter (fun c => c.salesforce_account_id = e.account_id)
    with _ | ⟨c1, _ | ⟨c1b, cs1⟩⟩
  · exfalso
    unfold custMult custKeys at hc
    rw [← filter_eq_length_count, hcs] at hc
    simp at hc
  · rw [hcs]
    simp only [except_bind_ok]
    rcases hos : s.opps.filter (fun o => o.salesforce_id = e.opportunity_id)
      with _ | ⟨o1, _ | ⟨o1b, os1⟩⟩
    · exfalso
      unfold oppMult oppKeys at ho
      rw [← filter_eq_length_count, hos] at ho
      simp at ho
    · rw [hos]
      have ho1 : o1.salesforce_id = e.opportunity_id := by
        have := List.mem_filter.mp (hos ▸ List.mem_cons_self o1 [])
        simpa using this.2
      refine Or.inr ⟨_, _, rfl, ?_, ?_⟩
      · simp only [custKeys, Bool.false_eq_true, if_false]
        rw [custKeys_update_stable]
      · have hop : (s.opps.map (fun x =>
            if x.salesforce_id = o1.salesforce_id then
              (⟨e.opportunity_id, c1.id, e.stage, e.probability,
                e.opp_amount, e.raw⟩ : Salesforce.SFOpp)
            else x)).map (·.salesforce_id) = s.opps.map (·.salesforce_id) :=
          map_proj_stable s.opps (fun x => by
            by_cases hx : x.salesforce_id = o1.salesforce_id
            · simp [hx, ho1]
            · simp [hx])
        simp only [oppKeys]
        rw [hop]
    · rw [hos]
      exact Or.inl ⟨_, rfl⟩
  · rw [hcs]
    exact Or.inl ⟨_, rfl⟩

theorem SFSim_trans {s t u : Salesforce.SFState} (h1 : SFSim s t)
    (h2 : SFSim t u) : SFSim s u :=
  ⟨h1.1.trans h2.1, h1.2.trans h2.2⟩

/-- `sync_opportunity` when extraction raises. -/
theorem sync_opportunity_extract_error {d : JVal} {e0 : PyErr}
    (s : Salesforce.SFState) (now : Nat) (today : String)
    (hex : Salesforce.extractOpp d = .error e0) :
    Salesforce.sync_opportunity s now today d = .error e0 := by
  unfold Salesforce.sync_opportunity
  rw [hex]
  rfl

/-- `sync_opportunity` when the record is falsy and skipped. -/
theorem sync_opportunity_extract_none {d : JVal}
    (s : Salesforce.SFState) (now : Nat) (today : String)
    (hex : Salesforce.extractOpp d = .ok none) :
    Salesforce.sync_opportunity s now today d = .ok (s, none) := by
  unfold Salesforce.sync_opportunity
  rw [hex]
  rfl

/-- `sync_opportunity` on an extracted record is the database step. -/
theorem sync_opportunity_extract_some {d : JVal} {e : Salesforce.ExtractedOpp}
    (s : Salesforce.SFState) (now : Nat) (today : String)
    (hex : Salesforce.extractOpp d = .ok (some e)) :
    Salesforce.sync_opportunity s now today d
      = Salesforce.applyOpp s now today e := by
  unfold Salesforce.sync_opportunity
  rw [hex]
  rfl

/-- The state reached by `sync_all_opportunities`. -/
def runState (now : Nat) (today : String) (s : Salesforce.SFState)
    (b : List JVal) : Salesforce.SFState :=
  (Salesforce.sync_all_opportunities s now today b).1

/-- One unfolding step of the batch runner (structure eta makes the
tuple form definitional). -/
theorem sync_all_cons (now : Nat) (today : String) (s : Salesforce.SFState)
    (d : JVal) (ds : List JVal) :
    Salesforce.sync_all_opportunities s now today (d :: ds)
      = match Salesforce.sync_opportunity s now today d with
        | .error e => (s, 0, some e)
        | .ok (s', r) =>
            ((Salesforce.sync_all_opportunities s' now today ds).1,
             (if r.isSome then 1 else 0)
               + (Salesforce.sync_all_opportunities s' now today ds).2.1,
             (Salesforce.sync_all_opportunities s' now today ds).2.2) := rfl

theorem runState_cons (now : Nat) (today : String) (s : Salesforce.SFState)
    (d : JVal) (ds : List JVal) :
    runState now today s (d :: ds)
      = match Salesforce.sync_opportunity s now today d with
        | .error _ => s
        | .ok (s', _) => runState now today s' ds := by
  cases h : Salesforce.sync_opportunity s now today d with
  | error e =>
      unfold runState
      rw [sync_all_cons, h]
  | ok p =>
      obtain ⟨s', r⟩ := p
      unfold runState
      rw [sync_all_cons, h]

/-- Runs over the same batch from key-list–equivalent states stay
key-list–equivalent, whatever the clock values. -/
theorem runState_bisim (now now' : Nat) (today today' : String) :
    ∀ (b : List JVal) {s t : Salesforce.SFState}, SFSim s t →
      SFSim (runState now today s b) (runState now' today' t b) := by
  intro b
  induction b with
  | nil => intro s t h; exact h
  | cons d ds ih =>
      intro s t hsim
      rw [runState_cons, runState_cons]
      rcases hex : Salesforce.extractOpp d with e0 | me
      · rw [sync_opportunity_extract_error s now today hex,
            sync_opportunity_extract_error t now' today' hex]
        exact hsim
      · rcases me with _ | e
        · rw [sync_opportunity_extract_none s now today hex,
              sync_opportunity_extract_none t now' today' hex]
          exact ih hsim
        · rw [sync_opportunity_extract_some s now today hex,
              sync_opportunity_extract_some t now' today' hex]
          rcases applyOpp_bisim now now' today today' e hsim with
            ⟨err, hs, ht⟩ | ⟨s', t', r, r', hs, ht, hsim'⟩
          · rw [hs, ht]
            exact hsim
          · rw [hs, ht]
            exact ih hsim'

/-- A run never lowers key multiplicities. -/
theorem runState_mono (now : Nat) (today : String) :
    ∀ (b : List JVal) (s : Salesforce.SFState),
      (∀ a, custMult s a ≤ custMult (runState now today s b) a) ∧
      (∀ i, oppMult s i ≤ oppMult (runState now today s b) i) := by
  intro b
  induction b with
  | nil => intro s; exact ⟨fun _ => le_rfl, fun _ => le_rfl⟩
  | cons d ds ih =>
      intro s
      rw [runState_cons]
      rcases hex : Salesforce.extractOpp d with e0 | me
      · rw [sync_opportunity_extract_error s now today hex]
        exact ⟨fun _ => le_rfl, fun _ => le_rfl⟩
      · rcases me with _ | e
        · rw [sync_opportunity_extract_none s now today hex]
          exact ih s
        · rw [sync_opportunity_extract_some s now today hex]
          rcases happ : Salesforce.applyOpp s now today e with err | ⟨s', r⟩
          · exact ⟨fun _ => le_rfl, fun _ => le_rfl⟩
          · have hm := applyOpp_mono happ
            exact ⟨fun a => (hm.1 a).trans ((ih s').1 a),
                   fun i => (hm.2.1 i).trans ((ih s').2 i)⟩

/-- Re-running an identical batch reaches a key-list–equivalent state:
the second run performs updates only. -/
theorem runState_idem (now1 now2 : Nat) (today1 today2 : String) :
    ∀ (b : List JVal) (s : Salesforce.SFState),
      SFSim (runState now2 today2 (runState now1 today1 s b) b)
        (runState now1 today1 s b) := by
  intro b
  induction b with
  | nil => intro s; exact SFSim_refl _
  | cons d ds ih =>
      intro s
      rcases hex : Salesforce.extractOpp d with e0 | me
      · -- extraction failure: both runs abort immediately
        rw [runState_cons now1, sync_opportunity_extract_error s now1 today1 hex,
            runState_cons now2, sync_opportunity_extract_error s now2 today2 hex]
        exact SFSim_refl _
      · rcases me with _ | e
        · -- skipped record on both runs
          rw [runState_cons now1, sync_opportunity_extract_none s now1 today1 hex,
              runState_cons now2,
              sync_opportunity_extract_none (runState now1 today1 s ds) now2
                today2 hex]
          exact ih s
        · rw [runState_cons now1, sync_opportunity_extract_some s now1 today1 hex]
          rcases happ : Salesforce.applyOpp s now1 today1 e with err | ⟨s', r⟩
          · -- the record raises; it raises on the second run too
            rw [runState_cons now2, sync_opportunity_extract_some s now2 today2 hex]
            rcases applyOpp_bisim now1 now2 today1 today2 e (SFSim_refl s) with
              ⟨err2, hs, ht⟩ | ⟨a, b2, r1, r2, hs, ht, _⟩
            · rw [ht]
              exact SFSim_refl _
            · rw [happ] at hs
              cases hs
          · -- the record was processed: its keys are present afterwards,
            -- so the second run can only update or raise at this record
            have hm := applyOpp_mono happ
            have hc1 : 1 ≤ custMult (runState now1 today1 s' ds) e.account_id :=
              hm.2.2.1.trans ((runState_mono now1 today1 ds s').1 e.account_id)
            have ho1 : 1 ≤ oppMult (runState now1 today1 s' ds) e.opportunity_id :=
              hm.2.2.2.trans ((runState_mono now1 today1 ds s').2 e.opportunity_id)
            rw [runState_cons now2,
                sync_opportunity_extract_some (runState now1 today1 s' ds) now2
                  today2 hex]
            rcases applyOpp_at_present now2 today2 e hc1 ho1 with
              ⟨err, hs⟩ | ⟨s1', r', hs, hsim'⟩
            · rw [hs]
              exact SFSim_refl _
            · rw [hs]
              exact SFSim_trans (runState_bisim now2 now2 today2 today2 ds hsim') (ih s')

/-- Filtering through a projection is filtering the projected list. -/
theorem filter_proj_length {α β : Type} (l : List α) (proj : α → β)
    (p : β → Bool) :
    (l.filter (fun x => p (proj x))).length = ((l.map proj).filter p).length := by
  induction l with
  | nil => rfl
  | cons c cs ih => by_cases h : p (proj c) <;> simp [h, ih]

/-- `any` through a projection is `any` on the projected list. -/
theorem any_proj {α β : Type} (l : List α) (proj : α → β) (q : β → Bool) :
    l.any (fun x => q (proj x)) = (l.map proj).any q := by
  induction l with
  | nil => rfl
  | cons c cs ih => simp [ih]

/-- The `(company, type, external_id, is_active)` tuples of the
connector table rows, in row order. -/
def connKeys (st : Integrations.IntState) : List (Nat × String × String × Bool) :=
  st.connectors.map (fun c => (c.company, c.type, c.external_id, c.is_active))

/-- Connector-tuple equivalence of two states: enough to determine all
branching of `sync_record`. -/
def IntSim (s t : Integrations.IntState) : Prop := connKeys s = connKeys t

theorem IntSim_refl (s : Integrations.IntState) : IntSim s s := rfl

theorem IntSim_trans {s t u : Integrations.IntState} (h1 : IntSim s t)
    (h2 : IntSim t u) : IntSim s u := Eq.trans h1 h2

/-- Number of active connector rows carrying a given tuple. -/
def activeMult (st : Integrations.IntState) (co : Nat) (ty ex : String) : Nat :=
  (st.connectors.filter (fun c =>
    c.company = co ∧ c.type = ty ∧ c.external_id = ex ∧ c.is_active)).length

theorem IntSim.activeMult_eq {s t : Integrations.IntState} (h : IntSim s t)
    (co : Nat) (ty ex : String) :
    activeMult s co ty ex = activeMult t co ty ex := by
  unfold activeMult
  rw [show (s.connectors.filter (fun c =>
        c.company = co ∧ c.type = ty ∧ c.external_id = ex ∧ c.is_active)).length
      = ((connKeys s).filter (fun k =>
          k.1 = co ∧ k.2.1 = ty ∧ k.2.2.1 = ex ∧ k.2.2.2)).length
    from filter_proj_length s.connectors
      (fun c => (c.company, c.type, c.external_id, c.is_active))
      (fun k => k.1 = co ∧ k.2.1 = ty ∧ k.2.2.1 = ex ∧ k.2.2.2)]
  rw [show (t.connectors.filter (fun c =>
        c.company = co ∧ c.type = ty ∧ c.external_id = ex ∧ c.is_active)).length
      = ((connKeys t).filter (fun k =>
          k.1 = co ∧ k.2.1 = ty ∧ k.2.2.1 = ex ∧ k.2.2.2)).length
    from filter_proj_length t.connectors
      (fun c => (c.company, c.type, c.external_id, c.is_active))
      (fun k => k.1 = co ∧ k.2.1 = ty ∧ k.2.2.1 = ex ∧ k.2.2.2)]
  rw [h]

theorem IntSim.anyTuple_eq {s t : Integrations.IntState} (h : IntSim s t)
    (co : Nat) (ty ex : String) :
    s.connectors.any (fun c =>
        c.company = co ∧ c.type = ty ∧ c.external_id = ex)
      = t.connectors.any (fun c =>
        c.company = co ∧ c.type = ty ∧ c.external_id = ex) := by
  rw [show s.connectors.any (fun c =>
        c.company = co ∧ c.type = ty ∧ c.external_id = ex)
      = (connKeys s).any (fun k => k.1 = co ∧ k.2.1 = ty ∧ k.2.2.1 = ex)
    from any_proj s.connectors
      (fun c => (c.company, c.type, c.external_id, c.is_active))
      (fun k => k.1 = co ∧ k.2.1 = ty ∧ k.2.2.1 = ex)]
  rw [show t.connectors.any (fun c =>
        c.company = co ∧ c.type = ty ∧ c.external_id = ex)
      = (connKeys t).any (fun k => k.1 = co ∧ k.2.1 = ty ∧ k.2.2.1 = ex)
    from any_proj t.connectors
      (fun c => (c.company, c.type, c.external_id, c.is_active))
      (fun k => k.1 = co ∧ k.2.1 = ty ∧ k.2.2.1 = ex)]
  rw [h]

/-- A nonempty list has a last element. -/
theorem exists_getLast_of_ne_nil {α : Type} :
    ∀ (l : List α), l ≠ [] → ∃ c, l.getLast? = some c := by
  intro l
  induction l with
  | nil => intro h; exact absurd rfl h
  | cons a as ih =>
      intro _
      cases as with
      | nil => exact ⟨a, rfl⟩
      | cons b bs =>
          obtain ⟨c, hc⟩ := ih (by simp)
          exact ⟨c, by rw [List.getLast?_cons_cons]; exact hc⟩

/-- A list whose `getLast?` is `none` is empty. -/
theorem eq_nil_of_getLast_none {α : Type} {l : List α}
    (h : l.getLast? = none) : l = [] := by
  cases l with
  | nil => rfl
  | cons a as =>
      obtain ⟨c, hc⟩ := exists_getLast_of_ne_nil (a :: as) (by simp)
      rw [hc] at h
      cases h

/-- `sync_record` when an active connector row matches: the connector
table, and the connector-id counter, are untouched. -/
theorem sync_record_update (itype api : String) {s : Integrations.IntState}
    {co : Nat} {ex : String} (raw : JVal) (exf : List (String × JVal))
    {c : Integrations.IntegrationConnector}
    (hL : (s.connectors.filter (fun x =>
        x.company = co ∧ x.type = itype ∧ x.external_id = ex ∧
          x.is_active)).getLast? = some c) :
    ∃ ms, Integrations.sync_record itype api s co ex raw exf
      = .ok ({ connectors := s.connectors, metadatas := ms,
               nextConnectorId := s.nextConnectorId,
               nextMetadataId := s.nextMetadataId + 1 }, c.id, false) := by
  unfold Integrations.sync_record
  dsimp only []
  split
  · rename_i c' hL'
    have hc : some c' = some c := Eq.trans (Eq.symm hL') hL
    injection hc with hc
    subst hc
    exact ⟨_, rfl⟩
  · rename_i hL'
    exact Option.noConfusion (Eq.trans (Eq.symm hL') hL)

/-- `sync_record` when no active row matches but the unique-constraint
tuple collides with some (possibly inactive) row: `IntegrityError`. -/
theorem sync_record_conflict (itype api : String) {s : Integrations.IntState}
    {co : Nat} {ex : String} (raw : JVal) (exf : List (String × JVal))
    (hL : (s.connectors.filter (fun x =>
        x.company = co ∧ x.type = itype ∧ x.external_id = ex ∧
          x.is_active)).getLast? = none)
    (hany : s.connectors.any (fun x =>
        x.company = co ∧ x.type = itype ∧ x.external_id = ex) = true) :
    Integrations.sync_record itype api s co ex raw exf
      = .error .integrityError := by
  unfold Integrations.sync_record
  dsimp only []
  split
  · rename_i c' hL'
    exact Option.noConfusion (Eq.trans (Eq.symm hL) hL')
  · split
    · rfl
    · rename_i hcond
      exact absurd (show s.connectors.any (fun x =>
        x.company = co ∧ x.type = itype ∧ x.external_id = ex) = true
          from hany) hcond

/-- `sync_record` when no row carries the tuple at all: one connector
row is appended, carrying the tuple `(co, itype, ex)` and active. -/
theorem sync_record_create (itype api : String) {s : Integrations.IntState}
    {co : Nat} {ex : String} (raw : JVal) (exf : List (String × JVal))
    (hL : (s.connectors.filter (fun x =>
        x.company = co ∧ x.type = itype ∧ x.external_id = ex ∧
          x.is_active)).getLast? = none)
    (hany : s.connectors.any (fun x =>
        x.company = co ∧ x.type = itype ∧ x.external_id = ex) = false) :
    Integrations.sync_record itype api s co ex raw exf
      = .ok ({ connectors := s.connectors
                 ++ [⟨s.nextConnectorId, co, s.nextMetadataId + 1, itype, ex, true⟩],
               metadatas :=
                 (s.metadatas
                   ++ [⟨s.nextMetadataId, raw,
                        (if exf.isEmpty then [] else exf), api⟩])
                   ++ [⟨s.nextMetadataId + 1, raw,
                        (if exf.isEmpty then [] else exf), api⟩],
               nextConnectorId := s.nextConnectorId + 1,
               nextMetadataId := s.nextMetadataId + 2 },
             s.nextConnectorId, true) := by
  unfold Integrations.sync_record
  dsimp only []
  split
  · rename_i c' hL'
    exact Option.noConfusion (Eq.trans (Eq.symm hL) hL')
  · split
    · rename_i hcond
      exact Bool.noConfusion (Eq.trans (Eq.symm hcond) hany)
    · rfl

/-- A list with a last element is nonempty. -/
theorem ne_nil_of_getLast_some {α : Type} {l : List α} {c : α}
    (h : l.getLast? = some c) : l ≠ [] := by
  intro h0
  rw [h0] at h
  cases h

/-- From key-list–equivalent states, `sync_record` either raises on
both (leaving both states as they were) or succeeds on both, reaching
key-list–equivalent states again. -/
theorem sync_record_bisim (itype api : String) {s t : Integrations.IntState}
    (h : IntSim s t) (co : Nat) (ex : String) (raw : JVal)
    (exf : List (String × JVal)) :
    (∃ e, Integrations.sync_record itype api s co ex raw exf = .error e ∧
          Integrations.sync_record itype api t co ex raw exf = .error e) ∨
    (∃ s' t' cid cid' cr cr',
        Integrations.sync_record itype api s co ex raw exf = .ok (s', cid, cr) ∧
        Integrations.sync_record itype api t co ex raw exf = .ok (t', cid', cr') ∧
        IntSim s' t') := by
  rcases hL : (s.connectors.filter (fun x =>
      x.company = co ∧ x.type = itype ∧ x.external_id = ex ∧
        x.is_active)).getLast? with _ | c
  · -- no active match in s, hence none in t either
    have hm0 : activeMult s co itype ex = 0 := by
      unfold activeMult
      rw [eq_nil_of_getLast_none hL]
      rfl
    have hmt : activeMult t co itype ex = 0 := (h.activeMult_eq co itype ex) ▸ hm0
    have htnil : (t.connectors.filter (fun x =>
        x.company = co ∧ x.type = itype ∧ x.external_id = ex ∧
          x.is_active)) = [] := by
      unfold activeMult at hmt
      exact List.length_eq_zero.mp hmt
    have hLt : (t.connectors.filter (fun x =>
        x.company = co ∧ x.type = itype ∧ x.external_id = ex ∧
          x.is_active)).getLast? = none := by
      rw [htnil]
      rfl
    rcases hA : s.connectors.any (fun x =>
        x.company = co ∧ x.type = itype ∧ x.external_id = ex) with _ | _
    · -- the tuple is absent everywhere: both create one matching row
      have hAt : t.connectors.any (fun x =>
          x.company = co ∧ x.type = itype ∧ x.external_id = ex) = false :=
        (h.anyTuple_eq co itype ex) ▸ hA
      refine Or.inr ⟨_, _, _, _, _, _,
        sync_record_create itype api raw exf hL hA,
        sync_record_create itype api raw exf hLt hAt, ?_⟩
      show connKeys _ = connKeys _
      unfold connKeys
      simp only [List.map_append]
      rw [show (s.connectors.map (fun c =>
            (c.company, c.type, c.external_id, c.is_active)))
          = t.connectors.map (fun c =>
            (c.company, c.type, c.external_id, c.is_active)) from h]
      rfl
    · -- a colliding (inactive) row exists in both: both raise
      have hAt : t.connectors.any (fun x =>
          x.company = co ∧ x.type = itype ∧ x.external_id = ex) = true :=
        (h.anyTuple_eq co itype ex) ▸ hA
      exact Or.inl ⟨_, sync_record_conflict itype api raw exf hL hA,
        sync_record_conflict itype api raw exf hLt hAt⟩
  · -- an active match in s, hence one in t: both update in place
    have h1 : 1 ≤ activeMult s co itype ex := by
      unfold activeMult
      exact List.length_pos.mpr (ne_nil_of_getLast_some hL)
    have h1t : 1 ≤ activeMult t co itype ex := (h.activeMult_eq co itype ex) ▸ h1
    have htne : (t.connectors.filter (fun x =>
        x.company = co ∧ x.type = itype ∧ x.external_id = ex ∧
          x.is_active)) ≠ [] := by
      intro h0
      unfold activeMult at h1t
      rw [h0] at h1t
      simp at h1t
    obtain ⟨c', hLt⟩ := exists_getLast_of_ne_nil _ htne
    obtain ⟨ms, hs⟩ := sync_record_update itype api raw exf hL
    obtain ⟨mt, ht⟩ := sync_record_update itype api raw exf hLt
    exact Or.inr ⟨_, _, _, _, _, _, hs, ht, h⟩

/-- A successful `sync_record` never lowers active-tuple multiplicities
and leaves its own tuple present. -/
theorem sync_record_mono {itype api : String} {s s' : Integrations.IntState}
    {co : Nat} {ex : String} {raw : JVal} {exf : List (String × JVal)}
    {cid : Nat} {cr : Bool}
    (h : Integrations.sync_record itype api s co ex raw exf = .ok (s', cid, cr)) :
    (∀ co' ty' ex', activeMult s co' ty' ex' ≤ activeMult s' co' ty' ex') ∧
    1 ≤ activeMult s' co itype ex := by
  rcases hL : (s.connectors.filter (fun x =>
      x.company = co ∧ x.type = itype ∧ x.external_id = ex ∧
        x.is_active)).getLast? with _ | c
  · rcases hA : s.connectors.any (fun x =>
        x.company = co ∧ x.type = itype ∧ x.external_id = ex) with _ | _
    · -- create: one active row with the tuple is appended
      rw [sync_record_create itype api raw exf hL hA] at h
      injection h with h'
      rw [Prod.mk.injEq, Prod.mk.injEq] at h'
      obtain ⟨rfl, -, -⟩ := h'
      constructor
      · intro co' ty' ex'
        unfold activeMult
        rw [List.filter_append]
        simp
      · unfold activeMult
        rw [List.filter_append]
        simp
    · -- unique-constraint collision: contradicts success
      rw [sync_record_conflict itype api raw exf hL hA] at h
      cases h
  · -- update: the connector table is untouched
    obtain ⟨ms, hs⟩ := sync_record_update itype api raw exf hL
    rw [hs] at h
    injection h with h'
    rw [Prod.mk.injEq, Prod.mk.injEq] at h'
    obtain ⟨rfl, -, -⟩ := h'
    refine ⟨fun co' ty' ex' => le_of_eq rfl, ?_⟩
    show 1 ≤ activeMult s co itype ex
    unfold activeMult
    exact List.length_pos.mpr (ne_nil_of_getLast_some hL)

/-- `sync_record` on a tuple that already has an active connector is a
pure in-place update: it succeeds with `created = false` and leaves the
connector key list unchanged. -/
theorem sync_record_at_present (itype api : String) {s : Integrations.IntState}
    (co : Nat) (ex : String) (raw : JVal) (exf : List (String × JVal))
    (h : 1 ≤ activeMult s co itype ex) :
    ∃ s' cid, Integrations.sync_record itype api s co ex raw exf
      = .ok (s', cid, false) ∧ IntSim s' s := by
  have hne : (s.connectors.filter (fun x =>
      x.company = co ∧ x.type = itype ∧ x.external_id = ex ∧
        x.is_active)) ≠ [] := by
    intro h0
    unfold activeMult at h
    rw [h0] at h
    simp at h
  obtain ⟨c, hc⟩ := exists_getLast_of_ne_nil _ hne
  obtain ⟨ms, hs⟩ := sync_record_update itype api raw exf hc
  exact ⟨_, _, hs, rfl⟩

/-- The state reached by a `sync_record` batch run. -/
def runInt (itype api : String) (s : Integrations.IntState)
    (b : List (Nat × String × JVal × List (String × JVal))) :
    Integrations.IntState :=
  (Integrations.sync_record_batch itype api s b).1

/-- One unfolding step of the batch runner (structure eta makes the
tuple form definitional). -/
theorem sync_record_batch_cons (itype api : String) (s : Integrations.IntState)
    (co : Nat) (ex : String) (raw : JVal) (exf : List (String × JVal))
    (rs : List (Nat × String × JVal × List (String × JVal))) :
    Integrations.sync_record_batch itype api s ((co, ex, raw, exf) :: rs)
      = match Integrations.sync_record itype api s co ex raw exf with
        | .error e => (s, 0, some e)
        | .ok (s', _, _) =>
            ((Integrations.sync_record_batch itype api s' rs).1,
             (Integrations.sync_record_batch itype api s' rs).2.1 + 1,
             (Integrations.sync_record_batch itype api s' rs).2.2) := rfl

theorem runInt_cons (itype api : String) (s : Integrations.IntState)
    (co : Nat) (ex : String) (raw : JVal) (exf : List (String × JVal))
    (rs : List (Nat × String × JVal × List (String × JVal))) :
    runInt itype api s ((co, ex, raw, exf) :: rs)
      = match Integrations.sync_record itype api s co ex raw exf with
        | .error _ => s
        | .ok (s', _, _) => runInt itype api s' rs := by
  cases h : Integrations.sync_record itype api s co ex raw exf with
  | error e =>
      unfold runInt
      rw [sync_record_batch_cons, h]
  | ok p =>
      obtain ⟨s', cid, cr⟩ := p
      unfold runInt
      rw [sync_record_batch_cons, h]

/-- Batch runs from key-list–equivalent states stay equivalent. -/
theorem runInt_bisim (itype api : String) :
    ∀ (b : List (Nat × String × JVal × List (String × JVal)))
      {s t : Integrations.IntState}, IntSim s t →
      IntSim (runInt itype api s b) (runInt itype api t b) := by
  intro b
  induction b with
  | nil => intro s t h; exact h
  | cons r rs ih =>
      obtain ⟨co, ex, raw, exf⟩ := r
      intro s t hsim
      rw [runInt_cons, runInt_cons]
      rcases sync_record_bisim itype api hsim co ex raw exf with
        ⟨e, hs, ht⟩ | ⟨s', t', cid, cid', cr, cr', hs, ht, hsim'⟩
      · rw [hs, ht]
        exact hsim
      · rw [hs, ht]
        exact ih hsim'

/-- A batch run never lowers active-tuple multiplicities. -/
theorem runInt_mono (itype api : String) :
    ∀ (b : List (Nat × String × JVal × List (String × JVal)))
      (s : Integrations.IntState) (co : Nat) (ty ex : String),
      activeMult s co ty ex ≤ activeMult (runInt itype api s b) co ty ex := by
  intro b
  induction b with
  | nil => intro s co ty ex; exact le_rfl
  | cons r rs ih =>
      obtain ⟨co0, ex0, raw, exf⟩ := r
      intro s co ty ex
      rw [runInt_cons]
      rcases h : Integrations.sync_record itype api s co0 ex0 raw exf with
        e | ⟨s', cid, cr⟩
      · exact le_rfl
      · exact ((sync_record_mono h).1 co ty ex).trans (ih s' co ty ex)

/-- Re-running an identical `sync_record` batch reaches a state with
the same connector key list: the second run updates in place only. -/
theorem runInt_idem (itype api : String) :
    ∀ (b : List (Nat × String × JVal × List (String × JVal)))
      (s : Integrations.IntState),
      IntSim (runInt itype api (runInt itype api s b) b)
        (runInt itype api s b) := by
  intro b
  induction b with
  | nil => intro s; exact IntSim_refl _
  | cons r rs ih =>
      obtain ⟨co, ex, raw, exf⟩ := r
      intro s
      rcases h1 : Integrations.sync_record itype api s co ex raw exf with
        e | ⟨s', cid, cr⟩
      · -- the record raises: both runs abort, leaving the state alone
        have hstep : runInt itype api s ((co, ex, raw, exf) :: rs) = s := by
          rw [runInt_cons, h1]
        rw [hstep, hstep]
        exact IntSim_refl s
      · -- processed: its tuple stays present, so the second run updates
        have hstep : runInt itype api s ((co, ex, raw, exf) :: rs)
            = runInt itype api s' rs := by
          rw [runInt_cons, h1]
        rw [hstep]
        have hp : 1 ≤ activeMult (runInt itype api s' rs) co itype ex :=
          (sync_record_mono h1).2.trans (runInt_mono itype api rs s' co itype ex)
        obtain ⟨s1', cid', hs1, hsim1⟩ :=
          sync_record_at_present itype api co ex raw exf hp
        rw [runInt_cons, hs1]
        exact IntSim_trans (runInt_bisim itype api rs hsim1) (ih s')

/-- C3: source sync is idempotent on row counts. For every starting
database state and every batch of raw records, running the identical
batch a second time — even at different clock/date values — leaves the
canonical-customer and opportunity table row counts
(`sync_all_opportunities`) and the connector table row count
(`sync_record` batches) after the second run equal to the counts after
the first run: matching is keyed by `salesforce_account_id` /
`salesforce_id` / `(company, type, external_id)` rather than insertion
order, so the second run produces no duplicate rows. -/
theorem sync_idempotent_row_counts :
    (∀ (now1 now2 : Nat) (today1 today2 : String) (b : List JVal)
       (s : Salesforce.SFState),
       (runState now2 today2 (runState now1 today1 s b) b).customers.length
         = (runState now1 today1 s b).customers.length ∧
       (runState now2 today2 (runState now1 today1 s b) b).opps.length
         = (runState now1 today1 s b).opps.length) ∧
    (∀ (itype api : String)
       (b : List (Nat × String × JVal × List (String × JVal)))
       (s : Integrations.IntState),
       (runInt itype api (runInt itype api s b) b).connectors.length
         = (runInt itype api s b).connectors.length) := by
  constructor
  · intro now1 now2 today1 today2 b s
    exact (runState_idem now1 now2 today1 today2 b s).lengths
  · intro itype api b s
    have h := congrArg List.length (runInt_idem itype api b s)
    simpa [connKeys] using h

end C3

end CSMPilot
